import Mathlib

/-!
# sv6 `kernel/acpi.cc`: platform discovery from the ACPI tables

A shallow embedding of `kernel/acpi.cc`.

* Firmware memory is a map from addresses to bytes; the MADT is a pointer into
  it, and the subtable iterator of `acpi_table` walks it by the `Length` byte
  of each record.
* The kernel globals written by this file (`have_tables`, `have_acpi`, `madt`,
  `ncpu`, `cpus`) form the state `Kernel`.
* A function that may `panic`, fail an `assert`, or loop for ever returns an
  `Outcome`: `ret` (it returned), `fatal` (it halted the boot, with the state
  at that point), `spin` (the loop had not finished when the fuel ran out).
* The I/O-APIC driver and the PCI scan callback are external collaborators;
  the calls made on them are recorded as traces.
* Console output (`verbose.println`, `swarn.println`) is not modelled.
-/

namespace Acpi

/-! ## Firmware memory -/

/-- Firmware memory: the byte stored at each address. -/
abbrev Mem := Nat → Nat

/-- Read of a `UINT8` field. -/
def rd8 (m : Mem) (a : Nat) : Nat := m a % 256

/-- Read of a little-endian `UINT16` field. -/
def rd16 (m : Mem) (a : Nat) : Nat := rd8 m a + 256 * rd8 m (a + 1)

/-- Read of a little-endian `UINT32` field. -/
def rd32 (m : Mem) (a : Nat) : Nat := rd16 m a + 65536 * rd16 m (a + 2)

/-- Conversion of an `int` argument to `uint8_t`. -/
def uint8_of_int (i : Int) : Nat := (i % 256).toNat

/-! ## Record layouts

Modelled from the spec: the headers declaring the table structs (`acpi.h`,
ACPICA `actbl.h`, `actbl1.h`) are not among the sources; the spec fixes the
layouts as those of the ACPI specification's MADT, byte-packed, which the
accessors below follow. -/

/-- Modelled from the spec: `sizeof(ACPI_TABLE_MADT)`, the 36-byte table
header followed by the 32-bit local-APIC address and the 32-bit flags. -/
def sizeof_ACPI_TABLE_MADT : Nat := 44

/-- Modelled from the spec: `ACPI_TABLE_HEADER.Length`, the 32-bit total table
length stored after the 4-byte signature. -/
def ACPI_TABLE_HEADER.Length (m : Mem) (p : Nat) : Nat := rd32 m (p + 4)

/-- Modelled from the spec: `ACPI_SUBTABLE_HEADER.Type`, first byte of a record. -/
def ACPI_SUBTABLE_HEADER.Type_ (m : Mem) (p : Nat) : Nat := rd8 m p

/-- Modelled from the spec: `ACPI_SUBTABLE_HEADER.Length`, second byte of a record. -/
def ACPI_SUBTABLE_HEADER.Length (m : Mem) (p : Nat) : Nat := rd8 m (p + 1)

/-- Modelled from the spec: `ACPI_MADT_LOCAL_APIC.Id` (8 bits, offset 3). -/
def ACPI_MADT_LOCAL_APIC.Id (m : Mem) (p : Nat) : Nat := rd8 m (p + 3)

/-- Modelled from the spec: `ACPI_MADT_LOCAL_APIC.LapicFlags` (32 bits, offset 4). -/
def ACPI_MADT_LOCAL_APIC.LapicFlags (m : Mem) (p : Nat) : Nat := rd32 m (p + 4)

/-- Modelled from the spec: `ACPI_MADT_LOCAL_X2APIC.LocalApicId` (32 bits, offset 4). -/
def ACPI_MADT_LOCAL_X2APIC.LocalApicId (m : Mem) (p : Nat) : Nat := rd32 m (p + 4)

/-- Modelled from the spec: `ACPI_MADT_LOCAL_X2APIC.LapicFlags` (32 bits, offset 8). -/
def ACPI_MADT_LOCAL_X2APIC.LapicFlags (m : Mem) (p : Nat) : Nat := rd32 m (p + 8)

/-- Modelled from the spec: `ACPI_MADT_IO_APIC.Address` (32 bits, offset 4). -/
def ACPI_MADT_IO_APIC.Address (m : Mem) (p : Nat) : Nat := rd32 m (p + 4)

/-- Modelled from the spec: `ACPI_MADT_IO_APIC.GlobalIrqBase` (32 bits, offset 8). -/
def ACPI_MADT_IO_APIC.GlobalIrqBase (m : Mem) (p : Nat) : Nat := rd32 m (p + 8)

/-- Modelled from the spec: `ACPI_MADT_INTERRUPT_OVERRIDE.Bus` (8 bits, offset 2). -/
def ACPI_MADT_INTERRUPT_OVERRIDE.Bus (m : Mem) (p : Nat) : Nat := rd8 m (p + 2)

/-- Modelled from the spec: `ACPI_MADT_INTERRUPT_OVERRIDE.SourceIrq` (8 bits, offset 3). -/
def ACPI_MADT_INTERRUPT_OVERRIDE.SourceIrq (m : Mem) (p : Nat) : Nat := rd8 m (p + 3)

/-- Modelled from the spec: `ACPI_MADT_INTERRUPT_OVERRIDE.GlobalIrq` (32 bits, offset 4). -/
def ACPI_MADT_INTERRUPT_OVERRIDE.GlobalIrq (m : Mem) (p : Nat) : Nat := rd32 m (p + 4)

/-- Modelled from the spec: `ACPI_MADT_INTERRUPT_OVERRIDE.IntiFlags` (16 bits, offset 8). -/
def ACPI_MADT_INTERRUPT_OVERRIDE.IntiFlags (m : Mem) (p : Nat) : Nat := rd16 m (p + 8)

/-- Modelled from the spec: `ACPI_MADT_NMI_SOURCE.IntiFlags` (16 bits, offset 2). -/
def ACPI_MADT_NMI_SOURCE.IntiFlags (m : Mem) (p : Nat) : Nat := rd16 m (p + 2)

/-- Modelled from the spec: `ACPI_MADT_NMI_SOURCE.GlobalIrq` (32 bits, offset 4). -/
def ACPI_MADT_NMI_SOURCE.GlobalIrq (m : Mem) (p : Nat) : Nat := rd32 m (p + 4)

/-- Modelled from the spec: record type code of a local-APIC record. -/
def ACPI_MADT_TYPE_LOCAL_APIC : Nat := 0
/-- Modelled from the spec: record type code of an I/O-APIC record. -/
def ACPI_MADT_TYPE_IO_APIC : Nat := 1
/-- Modelled from the spec: record type code of an interrupt-source override. -/
def ACPI_MADT_TYPE_INTERRUPT_OVERRIDE : Nat := 2
/-- Modelled from the spec: record type code of an NMI source. -/
def ACPI_MADT_TYPE_NMI_SOURCE : Nat := 3
/-- Modelled from the spec: record type code of a local-x2APIC record. -/
def ACPI_MADT_TYPE_LOCAL_X2APIC : Nat := 9

/-- Modelled from the spec: the "enabled" bit of `LapicFlags`. -/
def ACPI_MADT_ENABLED : Nat := 1

/-- Modelled from the spec: the two-bit polarity field of `IntiFlags`. -/
def ACPI_MADT_POLARITY_MASK : Nat := 3
/-- Modelled from the spec: the two-bit trigger-mode field of `IntiFlags`. -/
def ACPI_MADT_TRIGGER_MASK : Nat := 12
/-- Modelled from the spec: polarity "conforms to bus default". -/
def ACPI_MADT_POLARITY_CONFORMS : Nat := 0
/-- Modelled from the spec: polarity "active low". -/
def ACPI_MADT_POLARITY_ACTIVE_LOW : Nat := 3
/-- Modelled from the spec: trigger mode "conforms to bus default". -/
def ACPI_MADT_TRIGGER_CONFORMS : Nat := 0
/-- Modelled from the spec: trigger mode "level". -/
def ACPI_MADT_TRIGGER_LEVEL : Nat := 12

/-! ## Outcomes -/

/-- The ways `kernel/acpi.cc` halts the boot. -/
inductive Panic where
  /-- The call `panic("initcpus_acpi: too many CPUs")`. -/
  | too_many_cpus
  /-- The failed `assert(found_bsp)`. -/
  | assert_found_bsp
  /-- The call `panic("decode_mps_inti_flags: Unknown bus %d", bus)`. -/
  | unknown_bus (bus : Nat)
  /-- The call `panic("acpi: Error evaluating _BBN: %s", ...)`. -/
  | bbn_error (r : Nat)
  /-- The call `panic("acpi: AcpiInitializeTables failed: %s", ...)`. -/
  | tables_failed (r : Nat)
  /-- The call `panic("acpi: AcpiGetTable failed: %s", ...)`. -/
  | get_table_failed (r : Nat)
  /-- The call `panic("acpi: AcpiInitializeSubsystem failed: %s", ...)`. -/
  | subsystem_failed (r : Nat)
  /-- The call `panic("acpi: AcpiLoadTables failed: %s", ...)`. -/
  | load_tables_failed (r : Nat)
  /-- The call `panic("acpi: AcpiEnableSubsystem failed: %s", ...)`. -/
  | enable_failed (r : Nat)
  /-- The call `panic("acpi: AcpiInitializeObjects failed: %s", ...)`. -/
  | objects_failed (r : Nat)
  /-- The call `panic("acpi: Error evaluating _PIC: %s", ...)`. -/
  | pic_error (r : Nat)
  deriving DecidableEq, Repr

/-- Result of running a function of the file on state `σ`. -/
inductive Outcome (σ : Type) (α : Type) where
  /-- The function returned `a`, leaving state `s`. -/
  | ret (a : α) (s : σ)
  /-- The function halted the boot with `p`; `s` is the state at that point. -/
  | fatal (p : Panic) (s : σ)
  /-- The loop was still running in state `s` when the fuel ran out. -/
  | spin (s : σ)
  deriving DecidableEq, Repr

/-! ## `acpi_table` and its iterator -/

/-- The class `acpi_table<Hdr>`: a pointer to the table header, `0` for `nullptr`. -/
structure acpi_table where
  header_ : Nat
  deriving DecidableEq, Repr

namespace acpi_table

/-- The method `acpi_table::get`. -/
def get (t : acpi_table) : Nat := t.header_

/-- The class `acpi_table::iterator`: the cursor `pos_`. -/
structure iterator where
  pos_ : Nat
  deriving DecidableEq, Repr

/-- The increment `iterator::operator++`: advance by the record's `Length`. -/
def iterator.next (m : Mem) (it : iterator) : iterator :=
  ⟨it.pos_ + ACPI_SUBTABLE_HEADER.Length m it.pos_⟩

/-- The comparison `iterator::operator!=`. -/
def iterator.ne (a o : iterator) : Bool := a.pos_ != o.pos_

/-- The method `acpi_table::begin` for `Hdr = ACPI_TABLE_MADT`: `header_ + 1`. -/
def begin_ (t : acpi_table) : iterator := ⟨t.header_ + sizeof_ACPI_TABLE_MADT⟩

/-- The method `acpi_table::end`: `(char*)header_ + header_->Header.Length`. -/
def end_ (m : Mem) (t : acpi_table) : iterator :=
  ⟨t.header_ + ACPI_TABLE_HEADER.Length m t.header_⟩

end acpi_table

/-- The loop `for (auto &sub : madt) body`: from cursor `it` to `e`, one unit of
fuel per evaluation of the loop condition.  The body gets the address of the
record; a `continue` is a body that returns the state unchanged, a panic in
the body is an `error`. -/
def rangeFor {σ : Type} (m : Mem) (body : Nat → σ → Except Panic σ)
    (e : acpi_table.iterator) : Nat → acpi_table.iterator → σ → Outcome σ Unit
  | 0, _, s => .spin s
  | fuel + 1, it, s =>
    if it.ne e then
      match body it.pos_ s with
      | .error p => .fatal p s
      | .ok s' => rangeFor m body e fuel (it.next m) s'
    else .ret () s

/-- The addresses of the records the iterator visits from `it` to `e`, or
`none` when the cursor has not reached `e` within the fuel. -/
def subtables (m : Mem) (e : acpi_table.iterator) :
    Nat → acpi_table.iterator → Option (List Nat)
  | 0, _ => none
  | fuel + 1, it =>
    if it.ne e then (subtables m e fuel (it.next m)).map (it.pos_ :: ·)
    else some []

/-! ## Interrupt flags -/

/-- The struct `irq`, with the fields this file writes. -/
structure irq where
  gsi : Nat
  active_low : Bool
  level_triggered : Bool
  deriving DecidableEq, Repr

/-- The function `decode_mps_inti_flags(bus, intiflags, out)`. -/
def decode_mps_inti_flags (bus intiflags : Nat) (out : irq) : Except Panic irq :=
  let polarity := intiflags &&& ACPI_MADT_POLARITY_MASK
  let out := { out with active_low := (polarity == ACPI_MADT_POLARITY_ACTIVE_LOW) }
  if bus != 0 && polarity == ACPI_MADT_POLARITY_CONFORMS then
    .error (.unknown_bus bus)
  else
    let trigger := intiflags &&& ACPI_MADT_TRIGGER_MASK
    let out := { out with level_triggered := (trigger == ACPI_MADT_TRIGGER_LEVEL) }
    if bus != 0 && trigger == ACPI_MADT_TRIGGER_CONFORMS then
      .error (.unknown_bus bus)
    else
      .ok out

/-! ## CPU discovery -/

/-- The struct `cpu`, with the fields this file writes. -/
structure cpu where
  id : Nat
  hwid : Nat
  deriving DecidableEq, Repr

/-- The kernel globals read and written by `kernel/acpi.cc`: the file-scope
`have_tables`, `have_acpi` and `madt`, the processor count `ncpu` and the
array `cpus[NCPU]` (slot number to descriptor). -/
structure Kernel where
  have_tables : Bool
  have_acpi : Bool
  madt : acpi_table
  ncpu : Nat
  cpus : Nat → cpu

/-- The two stores `c->id = c - cpus; c->hwid = HWID(lapicid);` for `c = &cpus[i]`. -/
def store_cpu (cpus : Nat → cpu) (i lapicid : Nat) : Nat → cpu :=
  fun j => if j = i then { id := i, hwid := lapicid } else cpus j

/-- The part of the loop body of `initcpus_acpi` after `lapicid` has been read
from an enabled record: choose the slot, then fill it.  The state is the
globals together with the local `found_bsp`. -/
def initcpus_acpi_slot (NCPU my_apicid lapicid : Nat) (s : Kernel × Bool) :
    Except Panic (Kernel × Bool) :=
  if lapicid == my_apicid then
    .ok ({ s.1 with cpus := store_cpu s.1.cpus 0 lapicid }, true)
  else if s.1.ncpu == NCPU then
    .error .too_many_cpus
  else
    .ok ({ s.1 with cpus := store_cpu s.1.cpus s.1.ncpu lapicid, ncpu := s.1.ncpu + 1 }, s.2)

/-- The loop body of `initcpus_acpi` on the record at address `sub`. -/
def initcpus_acpi_body (NCPU : Nat) (m : Mem) (my_apicid : Nat) (sub : Nat)
    (s : Kernel × Bool) : Except Panic (Kernel × Bool) :=
  if ACPI_SUBTABLE_HEADER.Type_ m sub == ACPI_MADT_TYPE_LOCAL_APIC then
    if ACPI_MADT_LOCAL_APIC.LapicFlags m sub &&& ACPI_MADT_ENABLED == 0 then
      .ok s
    else
      initcpus_acpi_slot NCPU my_apicid (ACPI_MADT_LOCAL_APIC.Id m sub) s
  else if ACPI_SUBTABLE_HEADER.Type_ m sub == ACPI_MADT_TYPE_LOCAL_X2APIC then
    if ACPI_MADT_LOCAL_X2APIC.LapicFlags m sub &&& ACPI_MADT_ENABLED == 0 then
      .ok s
    else
      initcpus_acpi_slot NCPU my_apicid (ACPI_MADT_LOCAL_X2APIC.LocalApicId m sub) s
  else
    .ok s

/-- Modelled from the spec: the kernel macro `assert(c)`, declared in `kernel.hh`,
which is not among the sources: a failed assertion is a fatal error; `p` names
the assertion. -/
def assert_ (c : Bool) (p : Panic) : Except Panic Unit :=
  if c then .ok () else .error p

/-- The function `initcpus_acpi`.  `NCPU` is the build-time capacity of `cpus`,
`my_apicid` the value `lapic->id()` reads from the running processor. -/
def initcpus_acpi (NCPU : Nat) (m : Mem) (my_apicid : Nat) (fuel : Nat) (k : Kernel) :
    Outcome Kernel Bool :=
  if k.madt.get == 0 then
    .ret false k
  else
    let k1 : Kernel := { k with ncpu := 1 }
    match rangeFor m (initcpus_acpi_body NCPU m my_apicid) (k1.madt.end_ m) fuel
        k1.madt.begin_ (k1, false) with
    | .spin s => .spin s.1
    | .fatal p s => .fatal p s.1
    | .ret _ s =>
      match assert_ s.2 .assert_found_bsp with
      | .error p => .fatal p s.1
      | .ok _ => .ret true s.1

/-! ## Interrupt routing -/

/-- A call made on the `ioapic` object passed to `acpi_setup_ioapic`. -/
inductive ApicCall where
  | register_base (gsi address : Nat)
  | register_isa_irq_override (isa_line : Nat) (i : irq)
  | register_nmi (i : irq)
  deriving DecidableEq, Repr

/-- A default-constructed `irq` with its `gsi` assigned; both flags are
overwritten by `decode_mps_inti_flags` before the value is used. -/
def irq_with_gsi (g : Nat) : irq := { gsi := g, active_low := false, level_triggered := false }

/-- The loop body of `acpi_setup_ioapic` on the record at address `sub`.  The
state is the calls made on `apic` so far together with the local `haveioapic`. -/
def acpi_setup_ioapic_body (m : Mem) (sub : Nat) (s : List ApicCall × Bool) :
    Except Panic (List ApicCall × Bool) :=
  if ACPI_SUBTABLE_HEADER.Type_ m sub == ACPI_MADT_TYPE_IO_APIC then
    .ok (s.1 ++ [.register_base (ACPI_MADT_IO_APIC.GlobalIrqBase m sub)
                  (ACPI_MADT_IO_APIC.Address m sub)], true)
  else if ACPI_SUBTABLE_HEADER.Type_ m sub == ACPI_MADT_TYPE_INTERRUPT_OVERRIDE then
    match decode_mps_inti_flags (ACPI_MADT_INTERRUPT_OVERRIDE.Bus m sub)
        (ACPI_MADT_INTERRUPT_OVERRIDE.IntiFlags m sub)
        (irq_with_gsi (ACPI_MADT_INTERRUPT_OVERRIDE.GlobalIrq m sub)) with
    | .error p => .error p
    | .ok gsi =>
      .ok (s.1 ++ [.register_isa_irq_override (ACPI_MADT_INTERRUPT_OVERRIDE.SourceIrq m sub) gsi],
           s.2)
  else if ACPI_SUBTABLE_HEADER.Type_ m sub == ACPI_MADT_TYPE_NMI_SOURCE then
    match decode_mps_inti_flags (uint8_of_int (-1)) (ACPI_MADT_NMI_SOURCE.IntiFlags m sub)
        (irq_with_gsi (ACPI_MADT_NMI_SOURCE.GlobalIrq m sub)) with
    | .error p => .error p
    | .ok nmi => .ok (s.1 ++ [.register_nmi nmi], s.2)
  else
    .ok s

/-- The function `acpi_setup_ioapic(apic)`; `apic` is the list of calls already
made on the controller object, the resulting state the list after the call. -/
def acpi_setup_ioapic (m : Mem) (fuel : Nat) (k : Kernel) (apic : List ApicCall) :
    Outcome (List ApicCall) Bool :=
  if k.madt.get == 0 then
    .ret false apic
  else
    match rangeFor m (acpi_setup_ioapic_body m) (k.madt.end_ m) fuel k.madt.begin_
        (apic, false) with
    | .spin s => .spin s.1
    | .fatal p s => .fatal p s.1
    | .ret _ s => .ret s.2 s.1

/-! ## PCI root buses -/

/-- Modelled from the spec: the ACPICA status `AE_OK`. -/
def AE_OK : Nat := 0
/-- Modelled from the spec: the ACPICA status `AE_NOT_FOUND` ("method not found"). -/
def AE_NOT_FOUND : Nat := 5
/-- Modelled from the spec: the ACPICA test `ACPI_FAILURE(r)`, any status but `AE_OK`. -/
def ACPI_FAILURE (r : Nat) : Bool := r != AE_OK
/-- Modelled from the spec: the object type code of an integer result. -/
def ACPI_TYPE_INTEGER : Nat := 1
/-- Modelled from the spec: `sizeof(ACPI_OBJECT)`, the size the result buffer is given. -/
def sizeof_ACPI_OBJECT : Nat := 24

/-- The struct `pci_bus`, with the fields this file writes; `rest` stands for
the remaining fields of the struct (its declaration, in `pci.hh`, is not among
the sources), which `struct pci_bus bus = {}` zeroes and nothing here writes. -/
structure pci_bus where
  busno : Nat
  acpi_handle : Nat
  rest : Nat := 0
  deriving DecidableEq, Repr

/-- What the firmware answers to `AcpiEvaluateObject(object, "_BBN", nullptr, &outbuf)`:
the status `r`, and the contents of `outbuf.Length`, `out.Type` and
`out.Integer.Value` after the call. -/
structure BbnReply where
  status : Nat
  Length : Nat
  Type_ : Nat
  Value : Nat
  deriving DecidableEq, Repr

/-- The callback `pci_root_cb(object, nesting_level, context, return_value)`.
`bbn` is the firmware, `scan` the list of bus descriptors the scan callback
(the `context`) has been called with so far. -/
def pci_root_cb (bbn : Nat → BbnReply) (object : Nat) (scan : List pci_bus) :
    Outcome (List pci_bus) Nat :=
  let bus : pci_bus := { busno := 0, acpi_handle := 0, rest := 0 }
  let out := bbn object
  let r := out.status
  if ACPI_FAILURE r && r != AE_NOT_FOUND then
    .fatal (.bbn_error r) scan
  else
    let filled : Option pci_bus :=
      if r == AE_OK then
        if out.Length != sizeof_ACPI_OBJECT then none
        else if out.Type_ != ACPI_TYPE_INTEGER then none
        else some { bus with busno := out.Value }
      else some bus
    match filled with
    | none => .ret AE_OK scan
    | some bus => .ret AE_OK (scan ++ [{ bus with acpi_handle := object }])

/-- Modelled from the spec: the ACPICA walk `AcpiGetDevices(hid, callback, context, nullptr)`,
which is not among the sources.  `roots` are the namespace devices matching the
hardware-id class, in the order of the walk; each is handed to the callback
once, and the walk stops at a callback status other than `AE_OK`. -/
def AcpiGetDevices {σ : Type} (cb : Nat → σ → Outcome σ Nat) : List Nat → σ → Outcome σ Nat
  | [], s => .ret AE_OK s
  | d :: ds, s =>
    match cb d s with
    | .ret r s1 => if r == AE_OK then AcpiGetDevices cb ds s1 else .ret r s1
    | .fatal p s1 => .fatal p s1
    | .spin s1 => .spin s1

/-- The function `acpi_pci_scan_roots(scan)`. -/
def acpi_pci_scan_roots (roots : List Nat) (bbn : Nat → BbnReply) (k : Kernel)
    (scan : List pci_bus) : Outcome (List pci_bus) Bool :=
  if !k.have_acpi then
    .ret false scan
  else
    match AcpiGetDevices (pci_root_cb bbn) roots scan with
    | .ret _ s => .ret true s
    | .fatal p s => .fatal p s
    | .spin s => .spin s

/-! ## Table acquisition and subsystem bring-up -/

/-- The function `initacpitables`.  `r_tables` is the status that
`AcpiInitializeTables(nullptr, 16, FALSE)` returns, `r_madt` and `madtp` the
status and the table pointer that `AcpiGetTable(ACPI_SIG_MADT, 0, &madtp)` returns. -/
def initacpitables (r_tables r_madt madtp : Nat) (k : Kernel) : Outcome Kernel Unit :=
  if ACPI_FAILURE r_tables then
    .fatal (.tables_failed r_tables) k
  else
    let k1 : Kernel := { k with have_tables := true }
    if ACPI_FAILURE r_madt && r_madt != AE_NOT_FOUND then
      .fatal (.get_table_failed r_madt) k1
    else if r_madt == AE_OK then
      .ret () { k1 with madt := ⟨madtp⟩ }
    else
      .ret () k1

/-- Modelled from the spec: the ACPICA constant `ACPI_FULL_INITIALIZATION`. -/
def ACPI_FULL_INITIALIZATION : Nat := 0

/-- A call `initacpi` makes into ACPICA; the evaluation of `\_PIC` carries the
values of its integer arguments. -/
inductive AcpiCall where
  | AcpiInitializeSubsystem
  | AcpiLoadTables
  | AcpiEnableSubsystem (flags : Nat)
  | AcpiInitializeObjects (flags : Nat)
  | AcpiEvaluateObject_PIC (args : List Nat)
  deriving DecidableEq, Repr

/-- The statuses ACPICA returns to the five calls of one run of `initacpi`. -/
structure AcpiReplies where
  AcpiInitializeSubsystem : Nat
  AcpiLoadTables : Nat
  AcpiEnableSubsystem : Nat
  AcpiInitializeObjects : Nat
  AcpiEvaluateObject_PIC : Nat
  deriving DecidableEq, Repr

/-- The function `initacpi`.  The state is the kernel globals together with the
list of calls made into ACPICA so far. -/
def initacpi (fw : AcpiReplies) (s : Kernel × List AcpiCall) :
    Outcome (Kernel × List AcpiCall) Unit :=
  if !s.1.have_tables then
    .ret () s
  else
    let t1 := s.2 ++ [.AcpiInitializeSubsystem]
    if ACPI_FAILURE fw.AcpiInitializeSubsystem then
      .fatal (.subsystem_failed fw.AcpiInitializeSubsystem) (s.1, t1)
    else
      let t2 := t1 ++ [.AcpiLoadTables]
      if ACPI_FAILURE fw.AcpiLoadTables then
        .fatal (.load_tables_failed fw.AcpiLoadTables) (s.1, t2)
      else
        let t3 := t2 ++ [.AcpiEnableSubsystem ACPI_FULL_INITIALIZATION]
        if ACPI_FAILURE fw.AcpiEnableSubsystem then
          .fatal (.enable_failed fw.AcpiEnableSubsystem) (s.1, t3)
        else
          let t4 := t3 ++ [.AcpiInitializeObjects ACPI_FULL_INITIALIZATION]
          if ACPI_FAILURE fw.AcpiInitializeObjects then
            .fatal (.objects_failed fw.AcpiInitializeObjects) (s.1, t4)
          else
            let t5 := t4 ++ [.AcpiEvaluateObject_PIC [1]]
            let r := fw.AcpiEvaluateObject_PIC
            if ACPI_FAILURE r && r != AE_NOT_FOUND then
              .fatal (.pic_error r) (s.1, t5)
            else
              .ret () ({ s.1 with have_acpi := true }, t5)

/-! ## Record-level reading of a table -/

/-- The hardware id the loop of `initcpus_acpi` reads from the record at `sub`,
or `none` when it skips the record (other type, or "enabled" flag clear). -/
def enabled_lapicid (m : Mem) (sub : Nat) : Option Nat :=
  if ACPI_SUBTABLE_HEADER.Type_ m sub = ACPI_MADT_TYPE_LOCAL_APIC then
    if ACPI_MADT_LOCAL_APIC.LapicFlags m sub &&& ACPI_MADT_ENABLED = 0 then none
    else some (ACPI_MADT_LOCAL_APIC.Id m sub)
  else if ACPI_SUBTABLE_HEADER.Type_ m sub = ACPI_MADT_TYPE_LOCAL_X2APIC then
    if ACPI_MADT_LOCAL_X2APIC.LapicFlags m sub &&& ACPI_MADT_ENABLED = 0 then none
    else some (ACPI_MADT_LOCAL_X2APIC.LocalApicId m sub)
  else none

/-- Hardware ids of the enabled local-APIC and local-x2APIC records among the
records at addresses `ps`, in order. -/
def enabled_ids (m : Mem) (ps : List Nat) : List Nat := ps.filterMap (enabled_lapicid m)

/-- The loop body run over the records at addresses `ps`, in order: what the
range-for loop does on a table whose iteration visits exactly `ps`. -/
def runRecords {σ : Type} (body : Nat → σ → Except Panic σ) : List Nat → σ → Outcome σ Unit
  | [], s => .ret () s
  | p :: ps, s =>
    match body p s with
    | .error e => .fatal e s
    | .ok s1 => runRecords body ps s1

/-- Whether an outcome is a fatal error. -/
def Outcome.isFatal {σ α : Type} : Outcome σ α → Bool
  | .fatal _ _ => true
  | _ => false

/-- The state carried by an outcome, whichever it is. -/
def Outcome.state {σ α : Type} : Outcome σ α → σ
  | .ret _ s => s
  | .fatal _ s => s
  | .spin s => s

/-- What the loop of `initcpus_acpi` maintains: the count is at least 1 (slot 0
is reserved), every slot from 1 up to the count carries its own index as
logical id, and once `found_bsp` is set slot 0 is the boot processor. -/
def cpus_inv (boot : Nat) (s : Kernel × Bool) : Prop :=
  1 ≤ s.1.ncpu ∧ (∀ i, 1 ≤ i → i < s.1.ncpu → (s.1.cpus i).id = i) ∧
    (s.2 = true → s.1.cpus 0 = { id := 0, hwid := boot })

/-! ## Concrete tables -/

/-- Memory holding the bytes `bs` from address `base` on, and zero elsewhere. -/
def mem_at (base : Nat) (bs : List Nat) : Mem :=
  fun a => if a < base then 0 else bs.getD (a - base) 0

/-- The four bytes of a little-endian 32-bit value. -/
def le32 (n : Nat) : List Nat := [n % 256, n / 256 % 256, n / 65536 % 256, n / 16777216 % 256]

/-- The 44 bytes of a MADT header declaring the total length `len`: the
signature "APIC", the length, and the remaining header fields left zero. -/
def madt_header (len : Nat) : List Nat :=
  [0x41, 0x50, 0x49, 0x43] ++ le32 len ++ List.replicate 36 0

/-- The 8 bytes of a local-APIC record: type 0, length 8, processor id, APIC id, flags. -/
def lapic_record (id flags : Nat) : List Nat := [0, 8, id, id] ++ le32 flags

/-- The 12 bytes of an I/O-APIC record: type 1, length 12, id, reserved, address, GSI base. -/
def ioapic_record (id address gsi_base : Nat) : List Nat :=
  [1, 12, id, 0] ++ le32 address ++ le32 gsi_base

/-- The 10 bytes of an interrupt-source override: type 2, length 10, bus, source, GSI, flags. -/
def intov_record (bus source gsi flags : Nat) : List Nat :=
  [2, 10, bus, source] ++ le32 gsi ++ [flags % 256, flags / 256 % 256]

/-- The 8 bytes of an NMI-source record: type 3, length 8, flags, GSI. -/
def nmi_record (flags gsi : Nat) : List Nat :=
  [3, 8, flags % 256, flags / 256 % 256] ++ le32 gsi

/-- Kernel globals after `initacpitables` found a MADT at address `0x1000`:
no processor counted yet, every descriptor slot zero. -/
def kernel_0x1000 : Kernel :=
  { have_tables := true, have_acpi := false, madt := ⟨0x1000⟩, ncpu := 0,
    cpus := fun _ => { id := 0, hwid := 0 } }

/-- A MADT with three enabled local-APIC records, of hardware ids 5, 6 and 7. -/
def mem_three_cpus : Mem :=
  mem_at 0x1000 (madt_header 68 ++ lapic_record 5 1 ++ lapic_record 6 1 ++ lapic_record 7 1)

/-- A MADT with three enabled local-APIC records that all carry hardware id 5. -/
def mem_same_id : Mem :=
  mem_at 0x1000 (madt_header 68 ++ lapic_record 5 1 ++ lapic_record 5 1 ++ lapic_record 5 1)

/-- The `irq` the routing rules of the spec assign to a record with global
interrupt `gsi` and flags `flags`: active-low exactly when the polarity field
is "active low", level-triggered exactly when the trigger field is "level". -/
def routing_irq (gsi flags : Nat) : irq :=
  { gsi := gsi
    active_low := flags &&& ACPI_MADT_POLARITY_MASK == ACPI_MADT_POLARITY_ACTIVE_LOW
    level_triggered := flags &&& ACPI_MADT_TRIGGER_MASK == ACPI_MADT_TRIGGER_LEVEL }

/-- The controller call the routing rules of the spec assign to the record at
`sub`: one for each record of the three kinds of interest, none for the rest. -/
def routing_call (m : Mem) (sub : Nat) : Option ApicCall :=
  if ACPI_SUBTABLE_HEADER.Type_ m sub = ACPI_MADT_TYPE_IO_APIC then
    some (.register_base (ACPI_MADT_IO_APIC.GlobalIrqBase m sub) (ACPI_MADT_IO_APIC.Address m sub))
  else if ACPI_SUBTABLE_HEADER.Type_ m sub = ACPI_MADT_TYPE_INTERRUPT_OVERRIDE then
    some (.register_isa_irq_override (ACPI_MADT_INTERRUPT_OVERRIDE.SourceIrq m sub)
      (routing_irq (ACPI_MADT_INTERRUPT_OVERRIDE.GlobalIrq m sub)
        (ACPI_MADT_INTERRUPT_OVERRIDE.IntiFlags m sub)))
  else if ACPI_SUBTABLE_HEADER.Type_ m sub = ACPI_MADT_TYPE_NMI_SOURCE then
    some (.register_nmi (routing_irq (ACPI_MADT_NMI_SOURCE.GlobalIrq m sub)
      (ACPI_MADT_NMI_SOURCE.IntiFlags m sub)))
  else none

/-- Whether the record at `sub` is an I/O-APIC record. -/
def is_ioapic (m : Mem) (sub : Nat) : Bool :=
  ACPI_SUBTABLE_HEADER.Type_ m sub == ACPI_MADT_TYPE_IO_APIC

/-- A MADT with one I/O-APIC record followed by one NMI-source record (global
interrupt 2) whose polarity and trigger-mode fields are both "conforms". -/
def mem_nmi_conforms : Mem :=
  mem_at 0x1000 (madt_header 64 ++ ioapic_record 0 0xFEC00000 0 ++ nmi_record 0 2)

/-- A MADT with one interrupt-source override (bus 0, ISA line 0 to global
interrupt 2, active high, edge) and one NMI source (global interrupt 1, active
low, level), and no I/O-APIC record. -/
def mem_no_ioapic : Mem :=
  mem_at 0x1000 (madt_header 62 ++ intov_record 0 0 2 5 ++ nmi_record 15 1)

/-- The table of the end-to-end scenario, placed at address `base`: one enabled
local-APIC record of hardware id `X`, one I/O-APIC record (base GSI 0, address
`0xFEC00000`), one interrupt-source override (bus 0, ISA line 9, global
interrupt 9, flags 0). -/
def mem_e2e (base X : Nat) : Mem :=
  mem_at base (madt_header 74 ++ lapic_record X 1 ++ ioapic_record 0 0xFEC00000 0 ++
    intov_record 0 9 9 0)

/-- Whether `pci_root_cb` hands the root `d` to the scan callback: its `_BBN`
method is absent, or it returned an integer in a buffer of the right size. -/
def bbn_scanned (bbn : Nat → BbnReply) (d : Nat) : Bool :=
  (bbn d).status == AE_NOT_FOUND ||
    ((bbn d).status == AE_OK && (bbn d).Length == sizeof_ACPI_OBJECT &&
      (bbn d).Type_ == ACPI_TYPE_INTEGER)

/-- The bus descriptor of the root `d`: its own handle, and as base bus number
the `_BBN` result, or 0 when the method is absent. -/
def root_bus (bbn : Nat → BbnReply) (d : Nat) : pci_bus :=
  { busno := if (bbn d).status == AE_OK then (bbn d).Value else 0, acpi_handle := d }

/-- A firmware in which `_BBN` of the root 7 returns an object that is not an
integer (type code 3), and `_BBN` of every other root returns nothing (an
empty result buffer). -/
def bbn_malformed (d : Nat) : BbnReply :=
  if d = 7 then { status := AE_OK, Length := sizeof_ACPI_OBJECT, Type_ := 3, Value := 0 }
  else { status := AE_OK, Length := 0, Type_ := 0, Value := 0 }

/-- A firmware in which the root 7 has no `_BBN` method, `_BBN` of the root 8
returns the integer 4, and `_BBN` of every other root returns a non-integer. -/
def bbn_mixed (d : Nat) : BbnReply :=
  if d = 7 then { status := AE_NOT_FOUND, Length := sizeof_ACPI_OBJECT, Type_ := 0, Value := 0 }
  else if d = 8 then
    { status := AE_OK, Length := sizeof_ACPI_OBJECT, Type_ := ACPI_TYPE_INTEGER, Value := 4 }
  else { status := AE_OK, Length := sizeof_ACPI_OBJECT, Type_ := 3, Value := 0 }

/-- Kernel globals after `initacpi` enabled the full subsystem. -/
def kernel_acpi : Kernel := { kernel_0x1000 with have_acpi := true }

/-- Kernel globals at the start of the boot: both flags false, no MADT, no
processor counted, every descriptor slot zero. -/
def kernel_boot : Kernel :=
  { have_tables := false, have_acpi := false, madt := ⟨0⟩, ncpu := 0,
    cpus := fun _ => { id := 0, hwid := 0 } }

/-- Whether records with the declared lengths `lens`, each positive, lie back
to back in memory from address `pos` on. -/
def records_at (m : Mem) : Nat → List Nat → Bool
  | _, [] => true
  | pos, l :: ls =>
    ACPI_SUBTABLE_HEADER.Length m pos == l && decide (0 < l) && records_at m (pos + l) ls

/-- The addresses `pos`, `pos + len_1`, `pos + len_1 + len_2`, ... of records
with lengths `lens` lying back to back from `pos` on. -/
def offsets : Nat → List Nat → List Nat
  | _, [] => []
  | pos, l :: ls => pos :: offsets (pos + l) ls

/-- The cursor after `n` increments (`iterator::operator++`). -/
def cursor_after (m : Mem) : Nat → acpi_table.iterator → acpi_table.iterator
  | 0, it => it
  | n + 1, it => cursor_after m n (it.next m)

/-- A MADT of declared length 84 with four records of lengths 8, 16, 8 and 8:
a local APIC, a local x2APIC, a local-APIC NMI (type 4) and an NMI source. -/
def mem_four_records : Mem :=
  mem_at 0x1000 (madt_header 84 ++ lapic_record 5 1 ++
    ([9, 16, 0, 0] ++ le32 6 ++ le32 1 ++ le32 0) ++ [4, 8, 0, 0, 0, 0, 0, 0] ++ nmi_record 5 2)

/-- The bring-up stages in the order the spec lists them: initialise the
subsystem, load the tables, enable the subsystem in full mode, initialise the
objects in full mode, evaluate `_PIC` with the single integer argument 1. -/
def bringup_stages : List AcpiCall :=
  [.AcpiInitializeSubsystem, .AcpiLoadTables, .AcpiEnableSubsystem ACPI_FULL_INITIALIZATION,
    .AcpiInitializeObjects ACPI_FULL_INITIALIZATION, .AcpiEvaluateObject_PIC [1]]

/-- The number of stages, among the first four, that succeed before the first
one that fails. -/
def stages_passed (fw : AcpiReplies) : Nat :=
  if fw.AcpiInitializeSubsystem ≠ AE_OK then 0
  else if fw.AcpiLoadTables ≠ AE_OK then 1
  else if fw.AcpiEnableSubsystem ≠ AE_OK then 2
  else if fw.AcpiInitializeObjects ≠ AE_OK then 3
  else 4

/-- Replies of a firmware on which every stage succeeds but `_PIC` is absent. -/
def replies_no_pic : AcpiReplies :=
  { AcpiInitializeSubsystem := AE_OK, AcpiLoadTables := AE_OK, AcpiEnableSubsystem := AE_OK,
    AcpiInitializeObjects := AE_OK, AcpiEvaluateObject_PIC := AE_NOT_FOUND }

/-- One call of a function of the file, with any arguments and any firmware
responses, takes the kernel globals `k` to the globals at the point where the
call returns, halts the boot or runs out of fuel.  `acpi_setup_ioapic` and
`acpi_pci_scan_roots` only read the globals. -/
inductive KStep : Kernel → Kernel → Prop where
  | call_initacpitables (r_tables r_madt madtp : Nat) (k : Kernel) :
      KStep k (initacpitables r_tables r_madt madtp k).state
  | call_initcpus_acpi (NCPU : Nat) (m : Mem) (my_apicid fuel : Nat) (k : Kernel) :
      KStep k (initcpus_acpi NCPU m my_apicid fuel k).state
  | call_acpi_setup_ioapic (m : Mem) (fuel : Nat) (k : Kernel) (apic : List ApicCall)
      (o : Outcome (List ApicCall) Bool) (h : acpi_setup_ioapic m fuel k apic = o) : KStep k k
  | call_initacpi (fw : AcpiReplies) (k : Kernel) (tr : List AcpiCall) :
      KStep k (initacpi fw (k, tr)).state.1
  | call_acpi_pci_scan_roots (roots : List Nat) (bbn : Nat → BbnReply) (k : Kernel)
      (scan : List pci_bus) (o : Outcome (List pci_bus) Bool)
      (h : acpi_pci_scan_roots roots bbn k scan = o) : KStep k k

/-- The kernel globals reachable from a start of the boot, where both flags are
false, by any sequence of calls. -/
inductive Reachable : Kernel → Prop where
  | boot (k : Kernel) (h1 : k.have_tables = false) (h2 : k.have_acpi = false) : Reachable k
  | step (k k1 : Kernel) (hk : Reachable k) (hs : KStep k k1) : Reachable k1

/-- Whether the record at `sub` is one the spec says `initcpus_acpi` skips: a
local-APIC or local-x2APIC record whose "enabled" flag is clear, or a record
of any other type. -/
def skipped_record (m : Mem) (sub : Nat) : Bool :=
  (ACPI_SUBTABLE_HEADER.Type_ m sub == ACPI_MADT_TYPE_LOCAL_APIC &&
      ACPI_MADT_LOCAL_APIC.LapicFlags m sub &&& ACPI_MADT_ENABLED == 0) ||
    (ACPI_SUBTABLE_HEADER.Type_ m sub == ACPI_MADT_TYPE_LOCAL_X2APIC &&
      ACPI_MADT_LOCAL_X2APIC.LapicFlags m sub &&& ACPI_MADT_ENABLED == 0) ||
    (ACPI_SUBTABLE_HEADER.Type_ m sub != ACPI_MADT_TYPE_LOCAL_APIC &&
      ACPI_SUBTABLE_HEADER.Type_ m sub != ACPI_MADT_TYPE_LOCAL_X2APIC)

/-- The table `mem_three_cpus` with a disabled local-APIC record (hardware id
9, flags 0) inserted after the first record. -/
def mem_three_cpus_disabled : Mem :=
  mem_at 0x1000 (madt_header 76 ++ lapic_record 5 1 ++ lapic_record 9 0 ++ lapic_record 6 1 ++
    lapic_record 7 1)

end Acpi

/-!
# sv6 `bin/sh.cc`: the shell

A shallow embedding of the variable store, of expression evaluation and of the
lexer and parser of `bin/sh.cc`.  A `std::string` is the list of its
characters.  The loops of the lexer and the parser run on fuel; a thrown
exception, a failed `assert`, a call of `die` and the end of the fuel are the
errors of `ShError`.
-/

namespace Sh

/-- A `std::string`: the list of its characters. -/
abbrev Str := List Char

/-! ## Environment -/

/-- The function `setvar(name, val)` on the global `vars`: overwrite the value
of the first entry named `name`, or append a new entry. -/
def setvar : List (Str × Str) → Str → Str → List (Str × Str)
  | [], name, val => [(name, val)]
  | p :: rest, name, val =>
    if p.1 == name then (p.1, val) :: rest else p :: setvar rest name val

/-- The function `getvar(name)` on the global `vars`: the value of the first
entry named `name`, or the empty string. -/
def getvar : List (Str × Str) → Str → Str
  | [], _ => []
  | p :: rest, name => if p.1 == name then p.2 else getvar rest name

/-! ## Expressions -/

/-- The classes `expr_word`, `expr_var` and `expr_concat`. -/
inductive expr where
  | expr_word (val_ : Str)
  | expr_var (var_ : Str)
  | expr_concat (left_ right_ : expr)
  deriving DecidableEq, Repr

/-- The loop nest of `expr_concat::eval` on the two evaluated operands:
`for (auto &r : right) for (auto &l : left) out->push_back(l + r)`. -/
def expr_concat_loops (left right out : List Str) : List Str :=
  right.foldl (fun out r => left.foldl (fun out l => out ++ [l ++ r]) out) out

/-- The methods `eval(out)` of the three expression classes; `vars` is the
global variable store, `out` the vector the words are pushed on. -/
def expr.eval (vars : List (Str × Str)) : expr → List Str → List Str
  | .expr_word val_, out => out ++ [val_]
  | .expr_var var_, out => out ++ [getvar vars var_]
  | .expr_concat left_ right_, out =>
    let left := expr.eval vars left_ []
    let right := expr.eval vars right_ []
    expr_concat_loops left right out

/-- The Cartesian product of two word lists in the order of the claim: the
right operand is the outer loop. -/
def cartesian (L R : List Str) : List Str :=
  R.flatMap (fun r => L.map (fun l => l ++ r))

/-! ## Characters -/

/-- The NUL character, which ends every C string and is what `*pos` reads at `end`. -/
def c_nul : Char := Char.ofNat 0
/-- The horizontal tab. -/
def c_tab : Char := Char.ofNat 9
/-- The line feed (newline). -/
def c_lf : Char := Char.ofNat 10
/-- The vertical tab. -/
def c_vt : Char := Char.ofNat 11
/-- The carriage return. -/
def c_cr : Char := Char.ofNat 13
/-- The space. -/
def c_space : Char := Char.ofNat 32
/-- The double quote. -/
def c_dquote : Char := Char.ofNat 34
/-- The hash sign. -/
def c_hash : Char := Char.ofNat 35
/-- The dollar sign. -/
def c_dollar : Char := Char.ofNat 36
/-- The ampersand. -/
def c_amp : Char := Char.ofNat 38
/-- The single quote. -/
def c_squote : Char := Char.ofNat 39
/-- The opening parenthesis. -/
def c_lparen : Char := Char.ofNat 40
/-- The closing parenthesis. -/
def c_rparen : Char := Char.ofNat 41
/-- The plus sign, the token type of the two-character symbol for appending. -/
def c_plus : Char := Char.ofNat 43
/-- The semicolon. -/
def c_semi : Char := Char.ofNat 59
/-- The less-than sign. -/
def c_lt : Char := Char.ofNat 60
/-- The equals sign. -/
def c_eq : Char := Char.ofNat 61
/-- The greater-than sign. -/
def c_gt : Char := Char.ofNat 62
/-- The backslash. -/
def c_backslash : Char := Char.ofNat 92
/-- The underscore. -/
def c_underscore : Char := Char.ofNat 95
/-- The backquote. -/
def c_backquote : Char := Char.ofNat 96
/-- The letter a, the token type of a word. -/
def c_a : Char := Char.ofNat 97
/-- The opening brace. -/
def c_lbrace : Char := Char.ofNat 123
/-- The vertical bar. -/
def c_bar : Char := Char.ofNat 124
/-- The closing brace. -/
def c_rbrace : Char := Char.ofNat 125

/-- The C library function `strchr(s, c)` as a test: `c` occurs in `s`, the
terminating NUL of `s` included. -/
def strchr (s : Str) (c : Char) : Bool := c == c_nul || s.contains c

/-- The dereference `*pos` of a string iterator: the character at `pos`, the
terminating NUL at `end`. -/
def deref (buf : Str) (pos : Nat) : Char := buf.getD pos c_nul

/-- The constant `whitespace` of `lex`: space, tab, carriage return, newline,
vertical tab. -/
def whitespace : Str := [c_space, c_tab, c_cr, c_lf, c_vt]

/-- The constant `symbols` of `lex`: the characters of the one-character tokens. -/
def symbols : Str := [c_lt, c_gt, c_bar, c_amp, c_semi, c_lparen, c_rparen]

/-! ## Errors -/

/-- The messages of the `syntax_error` exceptions. -/
inductive SyntaxWhat where
  | unterminated_substitution
  | unterminated_quoted_string
  | missing_rparen
  | missing_file_for_redirection
  deriving DecidableEq, Repr

/-- The assertions of the lexer and the parser. -/
inductive ShAssert where
  /-- The assertion `assert(pos == end)` of `lex`. -/
  | pos_at_end
  /-- The assertion `assert(val)` of `parser::pexec`. -/
  | val
  /-- The assertion `assert(!eof)` of the constructor of `parser`. -/
  | not_eof
  deriving DecidableEq, Repr

/-- The ways the lexer and the parser leave a function other than by returning. -/
inductive ShError where
  /-- The exception `syntax_error`. -/
  | syntax_error (what : SyntaxWhat)
  /-- The exception `syntax_incomplete`. -/
  | syntax_incomplete
  /-- A failed `assert`, which aborts the shell. -/
  | assert_failed (a : ShAssert)
  /-- The call `die("unexpected token type in expression context")`. -/
  | die
  /-- The fuel of the model ran out. -/
  | out_of_fuel
  deriving DecidableEq, Repr

/-! ## Lexer -/

/-- The struct `tok`. -/
structure tok where
  type : Char
  word : Str := []
  deriving DecidableEq, Repr

/-- The modes of `lex`. -/
inductive Mode where
  | NORMAL
  | WORD
  | SINGLE
  | DOUBLE
  deriving DecidableEq, Repr

/-- The local variables of `lex` with the tokens pushed so far.  After
`move(word)` the variable `word` is taken to be empty; `lex` clears or
overwrites it before it is read again. -/
structure LexState where
  pos : Nat
  mode : Mode
  word : Str
  toks : List tok
  deriving DecidableEq, Repr

/-- The block `do_var` of `lex`, entered with `pos` on a dollar sign that is not
the last character. -/
def do_var (buf : Str) (eof : Bool) (st : LexState) : Except ShError LexState :=
  let pos := st.pos + 1
  let toks := st.toks ++ [{ type := c_a, word := st.word }]
  if deref buf pos == c_lbrace then
    let pos := pos + 1
    let name := (buf.drop pos).takeWhile (fun c => c != c_rbrace)
    let pos := pos + name.length
    if deref buf pos != c_rbrace then
      if eof then .error (.syntax_error .unterminated_substitution)
      else .error .syntax_incomplete
    else
      .ok { st with pos := pos + 1, word := [], toks := toks ++ [{ type := c_dollar, word := name }] }
  else
    let name := (buf.drop pos).takeWhile (fun c => c.isAlphanum || c == c_underscore)
    .ok { st with pos := pos + name.length, word := [],
                  toks := toks ++ [{ type := c_dollar, word := name }] }

/-- The `switch (mode)` inside the loop of `lex`, entered with `pos < end`. -/
def lex_case (buf : Str) (eof : Bool) (st : LexState) : Except ShError LexState :=
  let c := deref buf st.pos
  match st.mode with
  | .NORMAL =>
    if strchr symbols c then
      if c == c_gt && st.pos + 1 < buf.length && deref buf (st.pos + 1) == c_gt then
        .ok { st with toks := st.toks ++ [{ type := c_plus }], pos := st.pos + 2 }
      else
        .ok { st with toks := st.toks ++ [{ type := c }], pos := st.pos + 1 }
    else if c == c_hash then
      .ok { st with pos := st.pos +
        ((buf.drop st.pos).takeWhile (fun c => c != c_lf && c != c_cr)).length }
    else
      .ok { st with word := [], mode := .WORD }
  | .WORD =>
    if strchr whitespace c || strchr symbols c || c == c_hash then
      .ok { st with toks := st.toks ++ [{ type := c_a, word := st.word }, { type := c_space }],
                    word := [], mode := .NORMAL }
    else if c == c_squote then
      .ok { st with mode := .SINGLE, pos := st.pos + 1 }
    else if c == c_dquote then
      .ok { st with mode := .DOUBLE, pos := st.pos + 1 }
    else if c == c_backslash && st.pos + 1 < buf.length then
      let pos := st.pos + 1
      if deref buf pos != c_lf then
        .ok { st with word := st.word ++ [deref buf pos], pos := pos + 1 + 1 }
      else if pos + 1 == buf.length && !eof then
        .error .syntax_incomplete
      else
        .ok { st with pos := pos + 1 }
    else if c == c_dollar && st.pos + 1 < buf.length then
      do_var buf eof st
    else
      let word := st.word ++ [c]
      if c == c_eq && word.length > 1 then
        .ok { st with toks := st.toks ++ [{ type := c_eq, word := word }], word := [],
                      pos := st.pos + 1 }
      else
        .ok { st with word := word, pos := st.pos + 1 }
  | .SINGLE =>
    if c == c_squote then
      .ok { st with mode := .WORD, pos := st.pos + 1 }
    else
      .ok { st with word := st.word ++ [c], pos := st.pos + 1 }
  | .DOUBLE =>
    if c == c_dquote then
      .ok { st with mode := .WORD, pos := st.pos + 1 }
    else if c == c_backslash && deref buf (st.pos + 1) == c_lf then
      .ok { st with pos := st.pos + 1 + 1 }
    else if c == c_backslash &&
        strchr [c_dollar, c_backquote, c_dquote, c_backslash] (deref buf (st.pos + 1)) then
      .ok { st with word := st.word ++ [deref buf (st.pos + 1)], pos := st.pos + 1 + 1 }
    else if c == c_dollar && st.pos + 1 < buf.length then
      do_var buf eof st
    else
      .ok { st with word := st.word ++ [c], pos := st.pos + 1 }

/-- The loop `while (pos < end)` of `lex`, one unit of fuel per evaluation of
its condition. -/
def lex_loop (buf : Str) (eof : Bool) : Nat → LexState → Except ShError LexState
  | 0, _ => .error .out_of_fuel
  | fuel + 1, st =>
    if st.pos < buf.length then
      let pos :=
        if st.mode == .NORMAL then
          st.pos + ((buf.drop st.pos).takeWhile (strchr whitespace)).length
        else st.pos
      if pos == buf.length then
        .ok { st with pos := pos }
      else
        match lex_case buf eof { st with pos := pos } with
        | .error e => .error e
        | .ok st1 => lex_loop buf eof fuel st1
    else
      .ok st

/-- The function `lex(buf, eof, toks)`, returning the tokens. -/
def lex (buf : Str) (eof : Bool) (fuel : Nat) : Except ShError (List tok) :=
  match lex_loop buf eof fuel { pos := 0, mode := .NORMAL, word := [], toks := [] } with
  | .error e => .error e
  | .ok st =>
    match st.mode with
    | .WORD =>
      if st.pos == buf.length then .ok (st.toks ++ [{ type := c_space }])
      else .error (.assert_failed .pos_at_end)
    | .NORMAL => .ok st.toks
    | .SINGLE | .DOUBLE =>
      if eof then .error (.syntax_error .unterminated_quoted_string)
      else .error .syntax_incomplete

/-! ## Parser -/

/-- Modelled from the spec: the `open` flags of a redirection, declared in
`fcntl.h`, which is not among the sources; the three combinations `predir` uses. -/
inductive OpenMode where
  | O_RDONLY
  | O_WRONLY_O_CREAT_O_TRUNC
  | O_WRONLY_O_CREAT_O_APPEND
  deriving DecidableEq, Repr

/-- The text a `cmd_error` is built with. -/
inductive ErrorText where
  /-- The text "unexpected token: " followed by the type of the token. -/
  | unexpected_token (type : Char)
  /-- The text "syntax error: " followed by the message of the exception. -/
  | syntax_error (what : SyntaxWhat)
  deriving DecidableEq, Repr

/-- The classes `cmd_exec`, `cmd_redir`, `cmd_pipe`, `cmd_back`, `cmd_list` and
`cmd_error`. -/
inductive cmd where
  | cmd_exec (argv_ : List expr) (vars_ : List (Str × expr))
  | cmd_redir (fd_ : Nat) (mode_ : OpenMode) (file_ : expr) (left_ : cmd)
  | cmd_pipe (left_ right_ : cmd)
  | cmd_back (cmd_ : cmd)
  | cmd_list (left_ right_ : cmd)
  | cmd_error (error_ : ErrorText)
  deriving Repr

/-- The method `parser::tryget(accept, word_out)` on the cursor `cur`, the
tokens not yet consumed: the type of the token taken (NUL when none is), its
word, and the cursor afterwards.  A token whose type is NUL passes `strchr`
and is consumed, though the value returned is 0. -/
def tryget (accept : Str) (cur : List tok) : Char × Str × List tok :=
  match cur with
  | [] => (c_nul, [], [])
  | t :: rest => if !strchr accept t.type then (c_nul, [], cur) else (t.type, t.word, rest)

/-- The method `parser::require(accept, error)`. -/
def require (eof : Bool) (accept : Str) (error : SyntaxWhat) (cur : List tok) :
    Except ShError (Char × List tok) :=
  if !eof && cur.isEmpty then
    .error .syntax_incomplete
  else
    match tryget accept cur with
    | (type, _, cur1) =>
      if type == c_nul then .error (.syntax_error error) else .ok (type, cur1)

/-- The loop `while (tryget("a=", &part))` of `parser::pexpr`, with `buf` and `any`. -/
def pexpr_parts : Nat → List tok → Str → Bool → Except ShError (Str × Bool × List tok)
  | 0, _, _, _ => .error .out_of_fuel
  | fuel + 1, cur, buf, any =>
    match tryget [c_a, c_eq] cur with
    | (type, part, cur1) =>
      if type != c_nul then pexpr_parts fuel cur1 (buf ++ part) true
      else .ok (buf, any, cur1)

/-- The loop `while (!tryget(" "))` of `parser::pexpr`, with `res` (`none` for
a null reference). -/
def pexpr_loop : Nat → List tok → Option expr → Except ShError (Option expr × List tok)
  | 0, _, _ => .error .out_of_fuel
  | fuel + 1, cur, res =>
    match tryget [c_space] cur with
    | (type, _, cur1) =>
      if type != c_nul then .ok (res, cur1)
      else
        match pexpr_parts fuel cur1 [] false with
        | .error e => .error e
        | .ok (buf, any, cur2) =>
          let word : Except ShError (expr × List tok) :=
            if any then .ok (.expr_word buf, cur2)
            else
              match tryget [c_dollar] cur2 with
              | (type, part, cur3) =>
                if type != c_nul then .ok (.expr_var part, cur3) else .error .die
          match word with
          | .error e => .error e
          | .ok (word, cur3) =>
            match res with
            | none => pexpr_loop fuel cur3 (some word)
            | some r => pexpr_loop fuel cur3 (some (.expr_concat r word))

/-- The method `parser::pexpr`. -/
def pexpr (fuel : Nat) (cur : List tok) : Except ShError (Option expr × List tok) :=
  match cur with
  | [] => .ok (none, cur)
  | t :: _ =>
    if !strchr [c_a, c_eq, c_dollar] t.type then .ok (none, cur)
    else pexpr_loop fuel cur none

/-- The `switch (tok)` of `parser::predir`: wrap `res` in the redirection that
the token `tok` stands for. -/
def redir_wrap (tok : Char) (file : expr) (res : cmd) : cmd :=
  if tok == c_lt then .cmd_redir 0 .O_RDONLY file res
  else if tok == c_gt then .cmd_redir 1 .O_WRONLY_O_CREAT_O_TRUNC file res
  else if tok == c_plus then .cmd_redir 1 .O_WRONLY_O_CREAT_O_APPEND file res
  else res

/-- The method `parser::predir`, returning the redirections it parsed, in
order, with the cursor; `predir(res)` is `res` wrapped in them by `redir_all`. -/
def predir : Nat → List tok → Except ShError (List (Char × expr) × List tok)
  | 0, _ => .error .out_of_fuel
  | fuel + 1, cur =>
    match tryget [c_lt, c_gt, c_plus] cur with
    | (tok, _, cur1) =>
      if tok != c_nul then
        match pexpr fuel cur1 with
        | .error e => .error e
        | .ok (none, _) => .error (.syntax_error .missing_file_for_redirection)
        | .ok (some file, cur2) =>
          match predir fuel cur2 with
          | .error e => .error e
          | .ok (rs, cur3) => .ok ((tok, file) :: rs, cur3)
      else .ok ([], cur1)

/-- The command `res` wrapped in the redirections `rs`, the first innermost. -/
def redir_all (res : cmd) (rs : List (Char × expr)) : cmd :=
  rs.foldl (fun res r => redir_wrap r.1 r.2 res) res

/-- The loop `while (true)` of `parser::pexec`, with `ex->argv_`, `ex->vars_`
and `may_assign`.  In the source `res` wraps `ex` while `ex` is still being
filled; here the redirections met so far are kept in `rs` and `res` is built
when the loop ends. -/
def pexec_loop : Nat → List tok → List expr → List (Str × expr) → List (Char × expr) → Bool →
    Except ShError (cmd × List tok)
  | 0, _, _, _, _, _ => .error .out_of_fuel
  | fuel + 1, cur, argv_, vars_, rs, may_assign =>
    match predir fuel cur with
    | .error e => .error e
    | .ok (rs1, cur1) =>
      match (if may_assign then tryget [c_eq] cur1 else (c_nul, [], cur1)) with
      | (type, var, cur2) =>
        if type != c_nul then
          match pexpr fuel cur2 with
          | .error e => .error e
          | .ok (none, _) => .error (.assert_failed .val)
          | .ok (some val, cur3) =>
            pexec_loop fuel cur3 argv_ (vars_ ++ [(var.dropLast, val)]) (rs ++ rs1) true
        else
          match pexpr fuel cur2 with
          | .error e => .error e
          | .ok (none, cur3) => .ok (redir_all (.cmd_exec argv_ vars_) (rs ++ rs1), cur3)
          | .ok (some word, cur3) =>
            pexec_loop fuel cur3 (argv_ ++ [word]) vars_ (rs ++ rs1) false

/-- The loop `while (tryget("&"));` of `parser::pback`. -/
def pback_more : Nat → List tok → Except ShError (List tok)
  | 0, _ => .error .out_of_fuel
  | fuel + 1, cur =>
    match tryget [c_amp] cur with
    | (type, _, cur1) => if type != c_nul then pback_more fuel cur1 else .ok cur1

mutual

/-- The method `parser::pexec`. -/
def pexec : Nat → Bool → List tok → Except ShError (cmd × List tok)
  | 0, _, _ => .error .out_of_fuel
  | fuel + 1, eof, cur =>
    match tryget [c_lparen] cur with
    | (type, _, cur1) =>
      if type != c_nul then
        match plist fuel eof cur1 with
        | .error e => .error e
        | .ok (res, cur2) =>
          match require eof [c_rparen] .missing_rparen cur2 with
          | .error e => .error e
          | .ok (_, cur3) =>
            match predir fuel cur3 with
            | .error e => .error e
            | .ok (rs, cur4) => .ok (redir_all res rs, cur4)
      else pexec_loop fuel cur1 [] [] [] true

/-- The method `parser::ppipe`. -/
def ppipe : Nat → Bool → List tok → Except ShError (cmd × List tok)
  | 0, _, _ => .error .out_of_fuel
  | fuel + 1, eof, cur =>
    match pexec fuel eof cur with
    | .error e => .error e
    | .ok (res, cur1) =>
      match tryget [c_bar] cur1 with
      | (type, _, cur2) =>
        if type != c_nul then
          match ppipe fuel eof cur2 with
          | .error e => .error e
          | .ok (right, cur3) => .ok (.cmd_pipe res right, cur3)
        else .ok (res, cur2)

/-- The method `parser::pback`. -/
def pback : Nat → Bool → List tok → Except ShError (cmd × List tok)
  | 0, _, _ => .error .out_of_fuel
  | fuel + 1, eof, cur =>
    match ppipe fuel eof cur with
    | .error e => .error e
    | .ok (res, cur1) =>
      match tryget [c_amp] cur1 with
      | (type, _, cur2) =>
        if type != c_nul then
          match pback_more fuel cur2 with
          | .error e => .error e
          | .ok cur3 => .ok (.cmd_back res, cur3)
        else .ok (res, cur2)

/-- The method `parser::plist`. -/
def plist : Nat → Bool → List tok → Except ShError (cmd × List tok)
  | 0, _, _ => .error .out_of_fuel
  | fuel + 1, eof, cur =>
    match pback fuel eof cur with
    | .error e => .error e
    | .ok (res, cur1) =>
      match tryget [c_semi] cur1 with
      | (type, _, cur2) =>
        if type != c_nul then
          match plist fuel eof cur2 with
          | .error e => .error e
          | .ok (right, cur3) => .ok (.cmd_list res right, cur3)
        else .ok (res, cur2)

end

/-- The public members of `parser` after construction: `res` (`none` for a null
reference) and `incomplete`. -/
structure parser where
  res : Option cmd
  incomplete : Bool
  deriving Repr

/-- The `try` block of the constructor of `parser`. -/
def parser_try (buf : Str) (eof : Bool) (fuel : Nat) : Except ShError cmd :=
  match lex buf eof fuel with
  | .error e => .error e
  | .ok toks =>
    match plist fuel eof toks with
    | .error e => .error e
    | .ok (res, []) => .ok res
    | .ok (_, t :: _) => .ok (.cmd_error (.unexpected_token t.type))

/-- The constructor `parser(buf, eof)`, with its two `catch` clauses. -/
def parser_new (buf : Str) (eof : Bool) (fuel : Nat) : Except ShError parser :=
  match parser_try buf eof fuel with
  | .ok res => .ok { res := some res, incomplete := false }
  | .error (.syntax_error what) =>
    .ok { res := some (.cmd_error (.syntax_error what)), incomplete := false }
  | .error .syntax_incomplete =>
    if eof then .error (.assert_failed .not_eof) else .ok { res := none, incomplete := true }
  | .error e => .error e

/-- The stores reachable from the empty store by calls of `setvar`. -/
inductive StoreReachable : List (Str × Str) → Prop where
  | empty : StoreReachable []
  | set (vars : List (Str × Str)) (name val : Str) (h : StoreReachable vars) :
      StoreReachable (setvar vars name val)

end Sh

namespace Acpi

/-! ## Theorems -/

/-- On a table whose iteration visits the records `ps` within the fuel, the
range-for loop is the body run over `ps`. -/
theorem rangeFor_eq_runRecords {σ : Type} (m : Mem) (body : Nat → σ → Except Panic σ)
    (e : acpi_table.iterator) :
    ∀ (fuel : Nat) (it : acpi_table.iterator) (ps : List Nat) (s : σ),
      subtables m e fuel it = some ps → rangeFor m body e fuel it s = runRecords body ps s := by
  intro fuel
  induction fuel with
  | zero => intro it ps s h; simp [subtables] at h
  | succ n ih =>
    intro it ps s h
    simp only [subtables] at h
    by_cases hne : it.ne e = true
    · rw [if_pos hne] at h
      cases hsub : subtables m e n (it.next m) with
      | none => rw [hsub] at h; simp at h
      | some qs =>
        rw [hsub] at h
        simp only [Option.map_some', Option.some.injEq] at h
        subst h
        simp only [rangeFor, if_pos hne, runRecords]
        cases hb : body it.pos_ s with
        | error p => rfl
        | ok s1 => exact ih (it.next m) qs s1 hsub
    · rw [if_neg hne] at h
      simp only [Option.some.injEq] at h
      subst h
      simp [rangeFor, hne, runRecords]

/-- C5: `decode_mps_inti_flags` is fatal exactly when the bus is not 0 and the
polarity field (`f & 3`) or the trigger-mode field (`f & 12`) is the "conforms
to bus default" sentinel 0; in particular a non-zero bus with conforming
polarity is fatal, and on bus 0 every flag encoding decodes. -/
theorem C5_decode_fatal_iff (b f : Nat) (out : irq) :
    ((∃ p, decode_mps_inti_flags b f out = .error p) ↔
        (b ≠ 0 ∧ (f &&& 3 = 0 ∨ f &&& 12 = 0))) ∧
      (b ≠ 0 → f &&& 3 = 0 → decode_mps_inti_flags b f out = .error (.unknown_bus b)) ∧
      (∃ r, decode_mps_inti_flags 0 f out = .ok r) := by
  refine ⟨?_, ?_, ?_⟩
  · by_cases hb : b = 0 <;> by_cases h3 : f &&& 3 = 0 <;> by_cases h12 : f &&& 12 = 0 <;>
      simp [decode_mps_inti_flags, ACPI_MADT_POLARITY_MASK, ACPI_MADT_TRIGGER_MASK,
        ACPI_MADT_POLARITY_CONFORMS, ACPI_MADT_TRIGGER_CONFORMS, hb, h3, h12]
  · intro hb h3
    simp [decode_mps_inti_flags, ACPI_MADT_POLARITY_MASK, ACPI_MADT_POLARITY_CONFORMS, hb, h3]
  · simp [decode_mps_inti_flags]

/-- C6: on bus 0, flags whose polarity and trigger-mode fields are both
"conforms to default" decode without error to `active_low = false` and
`level_triggered = false`, whatever the other flag bits. -/
theorem C6_decode_isa_defaults (f : Nat) (out : irq)
    (hpol : f &&& ACPI_MADT_POLARITY_MASK = ACPI_MADT_POLARITY_CONFORMS)
    (htrig : f &&& ACPI_MADT_TRIGGER_MASK = ACPI_MADT_TRIGGER_CONFORMS) :
    decode_mps_inti_flags 0 f out =
      .ok { gsi := out.gsi, active_low := false, level_triggered := false } := by
  simp [decode_mps_inti_flags, hpol, htrig, ACPI_MADT_POLARITY_CONFORMS,
    ACPI_MADT_POLARITY_ACTIVE_LOW, ACPI_MADT_TRIGGER_CONFORMS, ACPI_MADT_TRIGGER_LEVEL]

/-- C6 at the flags `0xfff0`, bits set outside the two fields. -/
theorem C6_decode_isa_defaults_witness :
    decode_mps_inti_flags 0 0xfff0 { gsi := 9, active_low := true, level_triggered := true } =
      .ok { gsi := 9, active_low := false, level_triggered := false } :=
  C6_decode_isa_defaults 0xfff0 { gsi := 9, active_low := true, level_triggered := true }
    (by decide) (by decide)

/-- The loop body of `initcpus_acpi` skips a record without an enabled hardware
id and otherwise fills a slot with it. -/
theorem initcpus_acpi_body_eq (NCPU : Nat) (m : Mem) (boot sub : Nat) (s : Kernel × Bool) :
    initcpus_acpi_body NCPU m boot sub s =
      match enabled_lapicid m sub with
      | none => .ok s
      | some lapicid => initcpus_acpi_slot NCPU boot lapicid s := by
  unfold initcpus_acpi_body enabled_lapicid
  by_cases h0 : ACPI_SUBTABLE_HEADER.Type_ m sub = ACPI_MADT_TYPE_LOCAL_APIC
  · by_cases hf : ACPI_MADT_LOCAL_APIC.LapicFlags m sub &&& ACPI_MADT_ENABLED = 0 <;>
      simp [h0, hf]
  · by_cases h9 : ACPI_SUBTABLE_HEADER.Type_ m sub = ACPI_MADT_TYPE_LOCAL_X2APIC
    · have hne : ACPI_MADT_TYPE_LOCAL_X2APIC ≠ ACPI_MADT_TYPE_LOCAL_APIC := by decide
      by_cases hf : ACPI_MADT_LOCAL_X2APIC.LapicFlags m sub &&& ACPI_MADT_ENABLED = 0 <;>
        simp [h9, hf, hne]
    · simp [h0, h9]

/-- Over the records `ps` the loop of `initcpus_acpi` fills slots with the
enabled hardware ids of `ps`, in order. -/
theorem runRecords_initcpus (NCPU : Nat) (m : Mem) (boot : Nat) :
    ∀ (ps : List Nat) (s : Kernel × Bool),
      runRecords (initcpus_acpi_body NCPU m boot) ps s =
        runRecords (initcpus_acpi_slot NCPU boot) (enabled_ids m ps) s := by
  intro ps
  induction ps with
  | nil => intro s; rfl
  | cons p ps ih =>
    intro s
    simp only [runRecords, enabled_ids, List.filterMap_cons, initcpus_acpi_body_eq]
    cases hp : enabled_lapicid m p with
    | none => simpa [enabled_ids] using ih s
    | some lapicid =>
      simp only [runRecords]
      cases hs : initcpus_acpi_slot NCPU boot lapicid s with
      | error e => rfl
      | ok s1 => simpa [enabled_ids] using ih s1

/-- The enabled ids split into those that differ from the boot id and the
copies of the boot id. -/
theorem length_filter_ne_add_count (boot : Nat) (ids : List Nat) :
    (ids.filter (fun x => x != boot)).length + ids.count boot = ids.length := by
  induction ids with
  | nil => rfl
  | cons a ids ih =>
    by_cases h : a = boot
    · subst h
      simp only [List.filter_cons, bne_self_eq_false, Bool.false_eq_true, if_false,
        List.count_cons_self, List.length_cons]
      omega
    · have h1 : (a != boot) = true := by simpa using h
      simp only [List.filter_cons, h1, if_true, List.length_cons]
      rw [List.count_cons_of_ne (Ne.symm h)]
      omega

/-- While the other processors fit, the slot-filling loop returns: the count
grows by the number of ids that differ from the boot id, and `found_bsp` is
set when the boot id is among them. -/
theorem runSlots_ret (NCPU boot : Nat) :
    ∀ (ids : List Nat) (s : Kernel × Bool),
      s.1.ncpu + (ids.filter (fun x => x != boot)).length ≤ NCPU →
      ∃ k1 : Kernel,
        runRecords (initcpus_acpi_slot NCPU boot) ids s =
            .ret () (k1, s.2 || decide (boot ∈ ids)) ∧
          k1.ncpu = s.1.ncpu + (ids.filter (fun x => x != boot)).length := by
  intro ids
  induction ids with
  | nil => intro s _; exact ⟨s.1, by simp [runRecords], by simp⟩
  | cons a ids ih =>
    intro s hle
    by_cases h : a = boot
    · subst h
      have hfil : (List.filter (fun x => x != a) (a :: ids)) =
          List.filter (fun x => x != a) ids := by simp [List.filter_cons]
      rw [hfil] at hle ⊢
      obtain ⟨k1, hrun, hn⟩ :=
        ih ({ s.1 with cpus := store_cpu s.1.cpus 0 a }, true) hle
      refine ⟨k1, ?_, hn⟩
      simp only [runRecords, initcpus_acpi_slot, beq_self_eq_true, if_true]
      rw [hrun]
      simp
    · have h1 : (a != boot) = true := by simpa using h
      have hfil : (List.filter (fun x => x != boot) (a :: ids)) =
          a :: List.filter (fun x => x != boot) ids := by simp [List.filter_cons, h1]
      rw [hfil] at hle ⊢
      simp only [List.length_cons] at hle ⊢
      have hne : s.1.ncpu ≠ NCPU := by omega
      obtain ⟨k1, hrun, hn⟩ :=
        ih ({ s.1 with cpus := store_cpu s.1.cpus s.1.ncpu a, ncpu := s.1.ncpu + 1 }, s.2)
          (by simp only; omega)
      refine ⟨k1, ?_, by simp only at hn; omega⟩
      have hab : (a == boot) = false := by simpa using h
      have hnn : (s.1.ncpu == NCPU) = false := by simpa using hne
      simp only [runRecords, initcpus_acpi_slot, hab, hnn, Bool.false_eq_true, if_false]
      rw [hrun]
      have hmem : (boot ∈ a :: ids) ↔ boot ∈ ids := by
        simp [List.mem_cons, Ne.symm h]
      simp [hmem]

/-- When the processors other than the boot processor do not fit, the
slot-filling loop ends in the "too many CPUs" panic, with the count at `NCPU`. -/
theorem runSlots_fatal (NCPU boot : Nat) :
    ∀ (ids : List Nat) (s : Kernel × Bool),
      s.1.ncpu ≤ NCPU → NCPU < s.1.ncpu + (ids.filter (fun x => x != boot)).length →
      ∃ s1 : Kernel × Bool,
        runRecords (initcpus_acpi_slot NCPU boot) ids s = .fatal .too_many_cpus s1 ∧
          s1.1.ncpu = NCPU := by
  intro ids
  induction ids with
  | nil => intro s h1 h2; simp at h2; omega
  | cons a ids ih =>
    intro s hle hlt
    by_cases h : a = boot
    · subst h
      have hfil : (List.filter (fun x => x != a) (a :: ids)) =
          List.filter (fun x => x != a) ids := by simp [List.filter_cons]
      rw [hfil] at hlt
      obtain ⟨s1, hrun, hn⟩ :=
        ih ({ s.1 with cpus := store_cpu s.1.cpus 0 a }, true) hle hlt
      refine ⟨s1, ?_, hn⟩
      simp only [runRecords, initcpus_acpi_slot, beq_self_eq_true, if_true]
      exact hrun
    · have h1 : (a != boot) = true := by simpa using h
      have hfil : (List.filter (fun x => x != boot) (a :: ids)) =
          a :: List.filter (fun x => x != boot) ids := by simp [List.filter_cons, h1]
      rw [hfil] at hlt
      simp only [List.length_cons] at hlt
      have hab : (a == boot) = false := by simpa using h
      by_cases hfull : s.1.ncpu = NCPU
      · refine ⟨s, ?_, hfull⟩
        have hnn : (s.1.ncpu == NCPU) = true := by simpa using hfull
        simp [runRecords, initcpus_acpi_slot, hab, hnn]
      · have hnn : (s.1.ncpu == NCPU) = false := by simpa using hfull
        obtain ⟨s1, hrun, hn⟩ :=
          ih ({ s.1 with cpus := store_cpu s.1.cpus s.1.ncpu a, ncpu := s.1.ncpu + 1 }, s.2)
            (by simp only; omega) (by simp only; omega)
        refine ⟨s1, ?_, hn⟩
        simp only [runRecords, initcpus_acpi_slot, hab, hnn, Bool.false_eq_true, if_false]
        exact hrun

/-- One slot-filling step keeps `cpus_inv`. -/
theorem cpus_inv_slot (NCPU boot lapicid : Nat) (s s1 : Kernel × Bool)
    (hinv : cpus_inv boot s) (hstep : initcpus_acpi_slot NCPU boot lapicid s = .ok s1) :
    cpus_inv boot s1 := by
  obtain ⟨h1, hid, h0⟩ := hinv
  unfold initcpus_acpi_slot at hstep
  by_cases h : lapicid = boot
  · subst h
    simp only [beq_self_eq_true, if_true, Except.ok.injEq] at hstep
    subst hstep
    refine ⟨h1, ?_, ?_⟩
    · intro i hi1 hi2
      have : i ≠ 0 := by omega
      simpa [store_cpu, this] using hid i hi1 hi2
    · intro _; simp [store_cpu]
  · have hab : (lapicid == boot) = false := by simpa using h
    by_cases hfull : s.1.ncpu = NCPU
    · have hnn : (s.1.ncpu == NCPU) = true := by simpa using hfull
      simp [hab, hnn] at hstep
    · have hnn : (s.1.ncpu == NCPU) = false := by simpa using hfull
      simp only [hab, hnn, Bool.false_eq_true, if_false, Except.ok.injEq] at hstep
      subst hstep
      refine ⟨by simp only; omega, ?_, ?_⟩
      · intro i hi1 hi2
        simp only at hi2
        by_cases hi : i = s.1.ncpu
        · simp [store_cpu, hi]
        · simpa [store_cpu, hi] using hid i hi1 (by omega)
      · intro hf
        have hz : (0 : Nat) ≠ s.1.ncpu := by omega
        simpa [store_cpu, hz] using h0 hf

/-- The slot-filling loop keeps `cpus_inv`, whatever its outcome. -/
theorem cpus_inv_runSlots (NCPU boot : Nat) :
    ∀ (ids : List Nat) (s : Kernel × Bool), cpus_inv boot s →
      cpus_inv boot (runRecords (initcpus_acpi_slot NCPU boot) ids s).state := by
  intro ids
  induction ids with
  | nil => intro s h; simpa [runRecords, Outcome.state] using h
  | cons a ids ih =>
    intro s h
    simp only [runRecords]
    cases hs : initcpus_acpi_slot NCPU boot a s with
    | error e => simpa [Outcome.state] using h
    | ok s1 => exact ih s1 (cpus_inv_slot NCPU boot a s s1 h hs)

/-- With a MADT present whose iteration visits `ps`, `initcpus_acpi` sets the
count to 1, fills slots with the enabled ids of `ps`, and asserts `found_bsp`. -/
theorem initcpus_acpi_eq (NCPU : Nat) (m : Mem) (boot fuel : Nat) (k : Kernel) (ps : List Nat)
    (hmadt : k.madt.get ≠ 0)
    (hwf : subtables m (k.madt.end_ m) fuel k.madt.begin_ = some ps) :
    initcpus_acpi NCPU m boot fuel k =
      match runRecords (initcpus_acpi_slot NCPU boot) (enabled_ids m ps)
          (({ k with ncpu := 1 } : Kernel), false) with
      | .spin s => .spin s.1
      | .fatal p s => .fatal p s.1
      | .ret _ s => if s.2 then .ret true s.1 else .fatal .assert_found_bsp s.1 := by
  have hb : (k.madt.get == 0) = false := by simpa using hmadt
  unfold initcpus_acpi
  simp only [hb, Bool.false_eq_true, if_false]
  rw [rangeFor_eq_runRecords m _ _ fuel _ ps _ hwf, runRecords_initcpus]
  cases runRecords (initcpus_acpi_slot NCPU boot) (enabled_ids m ps)
      (({ k with ncpu := 1 } : Kernel), false) with
  | spin s => rfl
  | fatal p s => rfl
  | ret a s => cases hs : s.2 <;> simp [assert_, hs]

/-- The state `initcpus_acpi` starts its loop in satisfies `cpus_inv`. -/
theorem cpus_inv_start (boot : Nat) (k : Kernel) :
    cpus_inv boot (({ k with ncpu := 1 } : Kernel), false) := by
  refine ⟨Nat.le_refl 1, ?_, ?_⟩
  · intro i h1 h2; simp only at h2; omega
  · intro h; simp at h

/-- Without the boot id among the ids, the slot-filling loop either panics on
the capacity or returns with `found_bsp` as it was. -/
theorem runSlots_no_boot (NCPU boot : Nat) :
    ∀ (ids : List Nat) (s : Kernel × Bool), boot ∉ ids →
      (∃ s1, runRecords (initcpus_acpi_slot NCPU boot) ids s = .fatal .too_many_cpus s1) ∨
        (∃ k1 : Kernel, runRecords (initcpus_acpi_slot NCPU boot) ids s = .ret () (k1, s.2)) := by
  intro ids
  induction ids with
  | nil => intro s _; exact Or.inr ⟨s.1, by simp [runRecords]⟩
  | cons a ids ih =>
    intro s hno
    have ha : a ≠ boot := fun h => hno (by simp [h])
    have hids : boot ∉ ids := fun h => hno (List.mem_cons_of_mem _ h)
    have hab : (a == boot) = false := by simpa using ha
    by_cases hfull : s.1.ncpu = NCPU
    · have hnn : (s.1.ncpu == NCPU) = true := by simpa using hfull
      exact Or.inl ⟨s, by simp [runRecords, initcpus_acpi_slot, hab, hnn]⟩
    · have hnn : (s.1.ncpu == NCPU) = false := by simpa using hfull
      simp only [runRecords, initcpus_acpi_slot, hab, hnn, Bool.false_eq_true, if_false]
      exact ih _ hids

/-- C1: for a MADT whose iteration visits the records `ps`, with `N` enabled
local-APIC/local-x2APIC records, `N ≤ NCPU`, exactly one of which carries the
boot processor's hardware id (so `1 ≤ N`), `initcpus_acpi` returns true, sets
`ncpu` to `N`, gives every slot `i < N` the logical id `i`, and slot 0 is the
boot processor with the supplied boot id. -/
theorem C1_initcpus_acpi_topology (NCPU : Nat) (m : Mem) (boot fuel : Nat) (k : Kernel)
    (ps : List Nat) (hmadt : k.madt.get ≠ 0)
    (hwf : subtables m (k.madt.end_ m) fuel k.madt.begin_ = some ps)
    (hN : (enabled_ids m ps).length ≤ NCPU)
    (hboot : (enabled_ids m ps).count boot = 1) :
    ∃ k1 : Kernel, initcpus_acpi NCPU m boot fuel k = .ret true k1 ∧
      1 ≤ (enabled_ids m ps).length ∧
      k1.ncpu = (enabled_ids m ps).length ∧
      (∀ i, i < (enabled_ids m ps).length → (k1.cpus i).id = i) ∧
      k1.cpus 0 = { id := 0, hwid := boot } := by
  have hsplit := length_filter_ne_add_count boot (enabled_ids m ps)
  have hmem : boot ∈ enabled_ids m ps := List.count_pos_iff.mp (by omega)
  obtain ⟨k1, hrun, hn⟩ := runSlots_ret NCPU boot (enabled_ids m ps)
    (({ k with ncpu := 1 } : Kernel), false) (by simp only; omega)
  have hinv := cpus_inv_runSlots NCPU boot (enabled_ids m ps) _ (cpus_inv_start boot k)
  rw [hrun] at hinv
  simp only [Outcome.state, hmem, decide_True, Bool.or_true] at hinv
  obtain ⟨_, hid, h0⟩ := hinv
  simp only at hn hid h0
  refine ⟨k1, ?_, by omega, by omega, ?_, h0 trivial⟩
  · rw [initcpus_acpi_eq NCPU m boot fuel k ps hmadt hwf, hrun]
    simp [hmem]
  · intro i hi
    by_cases hi0 : i = 0
    · subst hi0; rw [h0 trivial]
    · exact hid i (by omega) (by omega)

/-- C1 on the table with the three processors 5, 6, 7, booted on 6, with capacity 4. -/
theorem C1_initcpus_acpi_topology_witness :
    ∃ k1 : Kernel, initcpus_acpi 4 mem_three_cpus 6 4 kernel_0x1000 = .ret true k1 ∧
      1 ≤ (enabled_ids mem_three_cpus [0x102c, 0x1034, 0x103c]).length ∧
      k1.ncpu = (enabled_ids mem_three_cpus [0x102c, 0x1034, 0x103c]).length ∧
      (∀ i, i < (enabled_ids mem_three_cpus [0x102c, 0x1034, 0x103c]).length →
        (k1.cpus i).id = i) ∧
      k1.cpus 0 = { id := 0, hwid := 6 } :=
  C1_initcpus_acpi_topology 4 mem_three_cpus 6 4 kernel_0x1000 [0x102c, 0x1034, 0x103c]
    (by decide) (by decide) (by decide) (by decide)

/-- C7: for a MADT whose iteration visits the records `ps`, none of whose
enabled local-APIC/local-x2APIC records carries the boot processor's hardware
id, `initcpus_acpi` does not return: it ends in the failed `found_bsp`
assertion, or in the capacity panic when that is hit first. -/
theorem C7_initcpus_acpi_no_bsp_fatal (NCPU : Nat) (m : Mem) (boot fuel : Nat) (k : Kernel)
    (ps : List Nat) (hmadt : k.madt.get ≠ 0)
    (hwf : subtables m (k.madt.end_ m) fuel k.madt.begin_ = some ps)
    (hno : boot ∉ enabled_ids m ps) :
    ∃ k1 : Kernel, initcpus_acpi NCPU m boot fuel k = .fatal .assert_found_bsp k1 ∨
      initcpus_acpi NCPU m boot fuel k = .fatal .too_many_cpus k1 := by
  rw [initcpus_acpi_eq NCPU m boot fuel k ps hmadt hwf]
  rcases runSlots_no_boot NCPU boot (enabled_ids m ps)
      (({ k with ncpu := 1 } : Kernel), false) hno with ⟨s1, h⟩ | ⟨k1, h⟩
  · exact ⟨s1.1, Or.inr (by rw [h])⟩
  · exact ⟨k1, Or.inl (by rw [h]; simp)⟩

/-- C7 on the table with the three processors 5, 6, 7, booted on processor 9. -/
theorem C7_initcpus_acpi_no_bsp_fatal_witness :
    ∃ k1 : Kernel, initcpus_acpi 4 mem_three_cpus 9 4 kernel_0x1000 = .fatal .assert_found_bsp k1 ∨
      initcpus_acpi 4 mem_three_cpus 9 4 kernel_0x1000 = .fatal .too_many_cpus k1 :=
  C7_initcpus_acpi_no_bsp_fatal 4 mem_three_cpus 9 4 kernel_0x1000 [0x102c, 0x1034, 0x103c]
    (by decide) (by decide) (by decide)

/-- C8, as stated, fails on the code.  With capacity 2 and the three enabled
processors 5, 6, 7 (booted on 5) the run is fatal, but only at the third
record: by then `ncpu` and the slots 0 and 1 have been written.  And with
capacity 2 and three enabled records that all carry the boot id 5, the run is
not fatal at all: it returns true. -/
theorem C8_counterexample :
    (subtables mem_three_cpus (kernel_0x1000.madt.end_ mem_three_cpus) 4
          kernel_0x1000.madt.begin_ = some [0x102c, 0x1034, 0x103c] ∧
        2 < (enabled_ids mem_three_cpus [0x102c, 0x1034, 0x103c]).length ∧
        ∃ k1 : Kernel, initcpus_acpi 2 mem_three_cpus 5 4 kernel_0x1000 =
            .fatal .too_many_cpus k1 ∧
          kernel_0x1000.ncpu = 0 ∧ k1.ncpu = 2 ∧
          kernel_0x1000.cpus 0 = { id := 0, hwid := 0 } ∧ k1.cpus 0 = { id := 0, hwid := 5 } ∧
          kernel_0x1000.cpus 1 = { id := 0, hwid := 0 } ∧ k1.cpus 1 = { id := 1, hwid := 6 }) ∧
      (subtables mem_same_id (kernel_0x1000.madt.end_ mem_same_id) 4
          kernel_0x1000.madt.begin_ = some [0x102c, 0x1034, 0x103c] ∧
        2 < (enabled_ids mem_same_id [0x102c, 0x1034, 0x103c]).length ∧
        ∃ k1 : Kernel, initcpus_acpi 2 mem_same_id 5 4 kernel_0x1000 = .ret true k1) := by
  refine ⟨⟨by decide, by decide, _, rfl, rfl, rfl, rfl, rfl, rfl, rfl⟩,
    ⟨by decide, by decide, _, rfl⟩⟩

/-- C8, amended: for a MADT whose iteration visits the records `ps`, with more
than `NCPU` enabled local-APIC/local-x2APIC records of which at most one
carries the boot id, `initcpus_acpi` ends in the "too many CPUs" panic.  The
panic is raised during the traversal: at that point `ncpu` has been written
and has reached `NCPU`, and the slots 1 to `NCPU - 1` have been filled, each
with its own index as logical id. -/
theorem C8_initcpus_acpi_too_many (NCPU : Nat) (m : Mem) (boot fuel : Nat) (k : Kernel)
    (ps : List Nat) (hcap : 1 ≤ NCPU) (hmadt : k.madt.get ≠ 0)
    (hwf : subtables m (k.madt.end_ m) fuel k.madt.begin_ = some ps)
    (hN : NCPU < (enabled_ids m ps).length)
    (hboot : (enabled_ids m ps).count boot ≤ 1) :
    ∃ k1 : Kernel, initcpus_acpi NCPU m boot fuel k = .fatal .too_many_cpus k1 ∧
      k1.ncpu = NCPU ∧ ∀ i, 1 ≤ i → i < NCPU → (k1.cpus i).id = i := by
  have hsplit := length_filter_ne_add_count boot (enabled_ids m ps)
  obtain ⟨s1, hrun, hn⟩ := runSlots_fatal NCPU boot (enabled_ids m ps)
    (({ k with ncpu := 1 } : Kernel), false) hcap (by simp only; omega)
  have hinv := cpus_inv_runSlots NCPU boot (enabled_ids m ps) _ (cpus_inv_start boot k)
  rw [hrun] at hinv
  obtain ⟨_, hid, _⟩ := hinv
  simp only [Outcome.state] at hid
  refine ⟨s1.1, ?_, hn, ?_⟩
  · rw [initcpus_acpi_eq NCPU m boot fuel k ps hmadt hwf, hrun]
  · intro i h1 h2
    exact hid i h1 (by omega)

/-- C8, amended, on the table with the three processors 5, 6, 7, booted on 5,
with capacity 2. -/
theorem C8_initcpus_acpi_too_many_witness :
    ∃ k1 : Kernel, initcpus_acpi 2 mem_three_cpus 5 4 kernel_0x1000 = .fatal .too_many_cpus k1 ∧
      k1.ncpu = 2 ∧ ∀ i, 1 ≤ i → i < 2 → (k1.cpus i).id = i :=
  C8_initcpus_acpi_too_many 2 mem_three_cpus 5 4 kernel_0x1000 [0x102c, 0x1034, 0x103c]
    (by decide) (by decide) (by decide) (by decide) (by decide)

/-- A successful decode sets both flags from the two fields and keeps the rest. -/
theorem decode_ok_eq (b f : Nat) (out r : irq) (h : decode_mps_inti_flags b f out = .ok r) :
    r = routing_irq out.gsi f := by
  unfold decode_mps_inti_flags at h
  simp only at h
  split at h
  · simp at h
  · split at h
    · simp at h
    · simp only [Except.ok.injEq] at h
      rw [← h]
      rfl

/-- A step of the loop of `acpi_setup_ioapic` that does not panic appends the
call the routing rules assign to the record, and notes an I/O-APIC record. -/
theorem acpi_setup_ioapic_body_ok (m : Mem) (sub : Nat) (s s1 : List ApicCall × Bool)
    (h : acpi_setup_ioapic_body m sub s = .ok s1) :
    s1 = (s.1 ++ (routing_call m sub).toList, s.2 || is_ioapic m sub) := by
  unfold acpi_setup_ioapic_body at h
  unfold routing_call is_ioapic
  have h12 : ACPI_MADT_TYPE_INTERRUPT_OVERRIDE ≠ ACPI_MADT_TYPE_IO_APIC := by decide
  have h13 : ACPI_MADT_TYPE_NMI_SOURCE ≠ ACPI_MADT_TYPE_IO_APIC := by decide
  have h23 : ACPI_MADT_TYPE_NMI_SOURCE ≠ ACPI_MADT_TYPE_INTERRUPT_OVERRIDE := by decide
  by_cases t1 : ACPI_SUBTABLE_HEADER.Type_ m sub = ACPI_MADT_TYPE_IO_APIC
  · simp only [t1, beq_self_eq_true, if_true, Except.ok.injEq] at h
    simp [t1, ← h]
  · by_cases t2 : ACPI_SUBTABLE_HEADER.Type_ m sub = ACPI_MADT_TYPE_INTERRUPT_OVERRIDE
    · simp only [t2, beq_self_eq_true, if_true] at h
      cases hd : decode_mps_inti_flags (ACPI_MADT_INTERRUPT_OVERRIDE.Bus m sub)
          (ACPI_MADT_INTERRUPT_OVERRIDE.IntiFlags m sub)
          (irq_with_gsi (ACPI_MADT_INTERRUPT_OVERRIDE.GlobalIrq m sub)) with
      | error e => rw [hd] at h; simp [h12] at h
      | ok r =>
        rw [hd] at h
        have hr := decode_ok_eq _ _ _ _ hd
        simp only [h12, beq_iff_eq, if_false, Except.ok.injEq] at h
        simp [t2, h12, ← h, hr, irq_with_gsi]
    · by_cases t3 : ACPI_SUBTABLE_HEADER.Type_ m sub = ACPI_MADT_TYPE_NMI_SOURCE
      · simp only [t3, beq_self_eq_true, if_true] at h
        cases hd : decode_mps_inti_flags (uint8_of_int (-1))
            (ACPI_MADT_NMI_SOURCE.IntiFlags m sub)
            (irq_with_gsi (ACPI_MADT_NMI_SOURCE.GlobalIrq m sub)) with
        | error e => rw [hd] at h; simp [h13, h23] at h
        | ok r =>
          rw [hd] at h
          have hr := decode_ok_eq _ _ _ _ hd
          simp only [h13, h23, beq_iff_eq, if_false, Except.ok.injEq] at h
          simp [t3, h13, h23, ← h, hr, irq_with_gsi]
      · have b1 : (ACPI_SUBTABLE_HEADER.Type_ m sub == ACPI_MADT_TYPE_IO_APIC) = false := by
          simpa using t1
        have b2 : (ACPI_SUBTABLE_HEADER.Type_ m sub == ACPI_MADT_TYPE_INTERRUPT_OVERRIDE)
            = false := by simpa using t2
        have b3 : (ACPI_SUBTABLE_HEADER.Type_ m sub == ACPI_MADT_TYPE_NMI_SOURCE) = false := by
          simpa using t3
        simp only [b1, b2, b3, Bool.false_eq_true, if_false, Except.ok.injEq] at h
        simp [t1, t2, t3, ← h, b1]

/-- A run of the loop of `acpi_setup_ioapic` that does not panic appends, in
order, the calls the routing rules assign to the records, and ends with
`haveioapic` set when one of them is an I/O-APIC record. -/
theorem runRecords_setup_ioapic (m : Mem) :
    ∀ (ps : List Nat) (s : List ApicCall × Bool),
      (∀ q s1, runRecords (acpi_setup_ioapic_body m) ps s ≠ .fatal q s1) →
      runRecords (acpi_setup_ioapic_body m) ps s =
        .ret () (s.1 ++ ps.filterMap (routing_call m), s.2 || ps.any (is_ioapic m)) := by
  intro ps
  induction ps with
  | nil => intro s _; simp [runRecords]
  | cons p ps ih =>
    intro s hnf
    simp only [runRecords] at hnf ⊢
    cases hb : acpi_setup_ioapic_body m p s with
    | error e => rw [hb] at hnf; exact absurd rfl (hnf e s)
    | ok s1 =>
      rw [hb] at hnf
      simp only at hnf ⊢
      rw [ih s1 hnf, acpi_setup_ioapic_body_ok m p s s1 hb]
      cases hc : routing_call m p <;> simp [List.filterMap_cons, hc, Bool.or_assoc]

/-- With a MADT present whose iteration visits `ps`, `acpi_setup_ioapic` is its
loop body run over `ps`, returning `haveioapic`. -/
theorem acpi_setup_ioapic_eq (m : Mem) (fuel : Nat) (k : Kernel) (apic : List ApicCall)
    (ps : List Nat) (hmadt : k.madt.get ≠ 0)
    (hwf : subtables m (k.madt.end_ m) fuel k.madt.begin_ = some ps) :
    acpi_setup_ioapic m fuel k apic =
      match runRecords (acpi_setup_ioapic_body m) ps (apic, false) with
      | .spin s => .spin s.1
      | .fatal p s => .fatal p s.1
      | .ret _ s => .ret s.2 s.1 := by
  have hb : (k.madt.get == 0) = false := by simpa using hmadt
  unfold acpi_setup_ioapic
  simp only [hb, Bool.false_eq_true, if_false]
  rw [rangeFor_eq_runRecords m _ _ fuel _ ps _ hwf]

/-- When `acpi_setup_ioapic` is not fatal, neither is its loop over the records. -/
theorem runRecords_setup_not_fatal (m : Mem) (fuel : Nat) (k : Kernel) (apic : List ApicCall)
    (ps : List Nat) (hmadt : k.madt.get ≠ 0)
    (hwf : subtables m (k.madt.end_ m) fuel k.madt.begin_ = some ps)
    (hnf : (acpi_setup_ioapic m fuel k apic).isFatal = false) :
    ∀ q s1, runRecords (acpi_setup_ioapic_body m) ps (apic, false) ≠ .fatal q s1 := by
  intro q s1 h
  rw [acpi_setup_ioapic_eq m fuel k apic ps hmadt hwf, h] at hnf
  simp [Outcome.isFatal] at hnf

/-- C9: for a MADT whose iteration visits the records `ps` and on which
`acpi_setup_ioapic` hits no fatal error, the calls made on the controller are
exactly the image of `ps`, in table order, under the routing rules:
`register_base(GlobalIrqBase, Address)` for an I/O-APIC record,
`register_isa_irq_override(SourceIrq, irq)` for an interrupt-source override,
`register_nmi(irq)` for an NMI source, with `irq.gsi = GlobalIrq`, active-low
iff the polarity field is active-low and level-triggered iff the trigger field
is level; records of any other type give no call. -/
theorem C9_acpi_setup_ioapic_calls (m : Mem) (fuel : Nat) (k : Kernel) (apic : List ApicCall)
    (ps : List Nat) (hmadt : k.madt.get ≠ 0)
    (hwf : subtables m (k.madt.end_ m) fuel k.madt.begin_ = some ps)
    (hnf : (acpi_setup_ioapic m fuel k apic).isFatal = false) :
    ∃ b, acpi_setup_ioapic m fuel k apic = .ret b (apic ++ ps.filterMap (routing_call m)) := by
  have h := runRecords_setup_ioapic m ps (apic, false)
    (runRecords_setup_not_fatal m fuel k apic ps hmadt hwf hnf)
  exact ⟨_, by rw [acpi_setup_ioapic_eq m fuel k apic ps hmadt hwf, h]⟩

/-- C9 on the table with one override and one NMI source, both with explicit flags. -/
theorem C9_acpi_setup_ioapic_calls_witness :
    ∃ b, acpi_setup_ioapic mem_no_ioapic 3 kernel_0x1000 [] =
      .ret b ([] ++ [0x102c, 0x1036].filterMap (routing_call mem_no_ioapic)) :=
  C9_acpi_setup_ioapic_calls mem_no_ioapic 3 kernel_0x1000 [] [0x102c, 0x1036]
    (by decide) (by decide) (by decide)

/-- C10: for a MADT whose iteration visits the records `ps` and on which
`acpi_setup_ioapic` hits no fatal error, it returns true if and only if `ps`
contains an I/O-APIC record; so a table with only overrides and NMI sources
returns false. -/
theorem C10_acpi_setup_ioapic_result (m : Mem) (fuel : Nat) (k : Kernel)
    (apic : List ApicCall) (ps : List Nat) (hmadt : k.madt.get ≠ 0)
    (hwf : subtables m (k.madt.end_ m) fuel k.madt.begin_ = some ps)
    (hnf : (acpi_setup_ioapic m fuel k apic).isFatal = false) :
    ∃ b calls, acpi_setup_ioapic m fuel k apic = .ret b calls ∧
      (b = true ↔ ∃ p ∈ ps, ACPI_SUBTABLE_HEADER.Type_ m p = ACPI_MADT_TYPE_IO_APIC) ∧
      ((∀ p ∈ ps, ACPI_SUBTABLE_HEADER.Type_ m p = ACPI_MADT_TYPE_INTERRUPT_OVERRIDE ∨
          ACPI_SUBTABLE_HEADER.Type_ m p = ACPI_MADT_TYPE_NMI_SOURCE) → b = false) := by
  have h := runRecords_setup_ioapic m ps (apic, false)
    (runRecords_setup_not_fatal m fuel k apic ps hmadt hwf hnf)
  refine ⟨_, _, by rw [acpi_setup_ioapic_eq m fuel k apic ps hmadt hwf, h], ?_, ?_⟩
  · simp [is_ioapic]
  · intro hall
    simp only [Bool.false_or, List.any_eq_false, is_ioapic, beq_iff_eq]
    intro p hp hio
    rcases hall p hp with h2 | h3
    · rw [hio] at h2; exact absurd h2 (by decide)
    · rw [hio] at h3; exact absurd h3 (by decide)

/-- C10 on the table with one override and one NMI source and no I/O-APIC record. -/
theorem C10_acpi_setup_ioapic_result_witness :
    ∃ b calls, acpi_setup_ioapic mem_no_ioapic 3 kernel_0x1000 [] = .ret b calls ∧
      (b = true ↔ ∃ p ∈ [0x102c, 0x1036],
        ACPI_SUBTABLE_HEADER.Type_ mem_no_ioapic p = ACPI_MADT_TYPE_IO_APIC) ∧
      ((∀ p ∈ [0x102c, 0x1036],
          ACPI_SUBTABLE_HEADER.Type_ mem_no_ioapic p = ACPI_MADT_TYPE_INTERRUPT_OVERRIDE ∨
          ACPI_SUBTABLE_HEADER.Type_ mem_no_ioapic p = ACPI_MADT_TYPE_NMI_SOURCE) → b = false) :=
  C10_acpi_setup_ioapic_result mem_no_ioapic 3 kernel_0x1000 [] [0x102c, 0x1036]
    (by decide) (by decide) (by decide)

/-- A loop whose body panics on the record `p`, whatever the state, is fatal
on every list of records that contains `p`. -/
theorem runRecords_fatal_of_mem {σ : Type} (body : Nat → σ → Except Panic σ) (p : Nat)
    (hp : ∀ s, ∃ e, body p s = .error e) :
    ∀ (ps : List Nat) (s : σ), p ∈ ps → ∃ q s1, runRecords body ps s = .fatal q s1 := by
  intro ps
  induction ps with
  | nil => intro s h; simp at h
  | cons a ps ih =>
    intro s hmem
    simp only [runRecords]
    cases hb : body a s with
    | error e => exact ⟨e, s, rfl⟩
    | ok s1 =>
      rcases List.mem_cons.mp hmem with h | h
      · subst h
        obtain ⟨e, he⟩ := hp s
        rw [he] at hb
        cases hb
      · exact ih s1 h

/-- C3, as stated, fails on the code.  On the table with one I/O-APIC record
followed by one NMI-source record whose polarity and trigger-mode fields are
both the sentinel, `acpi_setup_ioapic` takes the fatal path with bus 255, after
the single `register_base` call and without any `register_nmi` call. -/
theorem C3_counterexample :
    subtables mem_nmi_conforms (kernel_0x1000.madt.end_ mem_nmi_conforms) 3
        kernel_0x1000.madt.begin_ = some [0x102c, 0x1038] ∧
      ACPI_SUBTABLE_HEADER.Type_ mem_nmi_conforms 0x1038 = ACPI_MADT_TYPE_NMI_SOURCE ∧
      ACPI_MADT_NMI_SOURCE.IntiFlags mem_nmi_conforms 0x1038 &&& ACPI_MADT_POLARITY_MASK =
        ACPI_MADT_POLARITY_CONFORMS ∧
      ACPI_MADT_NMI_SOURCE.IntiFlags mem_nmi_conforms 0x1038 &&& ACPI_MADT_TRIGGER_MASK =
        ACPI_MADT_TRIGGER_CONFORMS ∧
      acpi_setup_ioapic mem_nmi_conforms 3 kernel_0x1000 [] =
        .fatal (.unknown_bus 255) [.register_base 0 0xFEC00000] := by
  decide

/-- On an NMI-source record whose polarity field or trigger-mode field is the
sentinel, the loop body of `acpi_setup_ioapic` panics with bus 255. -/
theorem nmi_conforms_body_error (m : Mem) (p : Nat) (s : List ApicCall × Bool)
    (hty : ACPI_SUBTABLE_HEADER.Type_ m p = ACPI_MADT_TYPE_NMI_SOURCE)
    (hs : ACPI_MADT_NMI_SOURCE.IntiFlags m p &&& ACPI_MADT_POLARITY_MASK =
          ACPI_MADT_POLARITY_CONFORMS ∨
        ACPI_MADT_NMI_SOURCE.IntiFlags m p &&& ACPI_MADT_TRIGGER_MASK =
          ACPI_MADT_TRIGGER_CONFORMS) :
    acpi_setup_ioapic_body m p s = .error (.unknown_bus 255) := by
  have h255 : uint8_of_int (-1) = 255 := by decide
  unfold acpi_setup_ioapic_body
  rw [hty, h255]
  have e1 : (ACPI_MADT_TYPE_NMI_SOURCE == ACPI_MADT_TYPE_IO_APIC) = false := by decide
  have e2 : (ACPI_MADT_TYPE_NMI_SOURCE == ACPI_MADT_TYPE_INTERRUPT_OVERRIDE) = false := by
    decide
  simp only [e1, e2, Bool.false_eq_true, if_false, beq_self_eq_true, if_true]
  rcases hs with h | h
  · simp [decode_mps_inti_flags, h]
  · by_cases hpol : ACPI_MADT_NMI_SOURCE.IntiFlags m p &&& ACPI_MADT_POLARITY_MASK =
        ACPI_MADT_POLARITY_CONFORMS
    · simp [decode_mps_inti_flags, hpol]
    · simp [decode_mps_inti_flags, hpol, h]

/-- C3, amended: for an NMI-source record the sentinel is not accepted.  The
flags are decoded with bus `(uint8_t)-1 = 255`, so on an NMI-source record
whose polarity field or trigger-mode field is "conforms to bus default" the
loop body panics before any `register_nmi` call, and `acpi_setup_ioapic` on a
table that contains such a record ends in a fatal error.  The loop body gets
past an NMI-source record only when both fields are explicit, and then calls
`register_nmi` with the record's global interrupt number, active-low iff the
polarity field is active-low and level-triggered iff the trigger field is level. -/
theorem C3_nmi_conforms_fatal (m : Mem) (fuel : Nat) (k : Kernel) (apic : List ApicCall)
    (ps : List Nat) (p : Nat) (hmadt : k.madt.get ≠ 0)
    (hwf : subtables m (k.madt.end_ m) fuel k.madt.begin_ = some ps) (hp : p ∈ ps)
    (hty : ACPI_SUBTABLE_HEADER.Type_ m p = ACPI_MADT_TYPE_NMI_SOURCE)
    (hs : ACPI_MADT_NMI_SOURCE.IntiFlags m p &&& ACPI_MADT_POLARITY_MASK =
          ACPI_MADT_POLARITY_CONFORMS ∨
        ACPI_MADT_NMI_SOURCE.IntiFlags m p &&& ACPI_MADT_TRIGGER_MASK =
          ACPI_MADT_TRIGGER_CONFORMS) :
    (∀ s, acpi_setup_ioapic_body m p s = .error (.unknown_bus 255)) ∧
      (acpi_setup_ioapic m fuel k apic).isFatal = true ∧
      (∀ q s s1, ACPI_SUBTABLE_HEADER.Type_ m q = ACPI_MADT_TYPE_NMI_SOURCE →
        acpi_setup_ioapic_body m q s = .ok s1 →
        ACPI_MADT_NMI_SOURCE.IntiFlags m q &&& ACPI_MADT_POLARITY_MASK ≠
            ACPI_MADT_POLARITY_CONFORMS ∧
          ACPI_MADT_NMI_SOURCE.IntiFlags m q &&& ACPI_MADT_TRIGGER_MASK ≠
            ACPI_MADT_TRIGGER_CONFORMS ∧
          s1 = (s.1 ++ [.register_nmi (routing_irq (ACPI_MADT_NMI_SOURCE.GlobalIrq m q)
            (ACPI_MADT_NMI_SOURCE.IntiFlags m q))], s.2)) := by
  have hbody := fun s => nmi_conforms_body_error m p s hty hs
  refine ⟨hbody, ?_, ?_⟩
  · obtain ⟨q, s1, hrun⟩ := runRecords_fatal_of_mem (acpi_setup_ioapic_body m) p
      (fun s => ⟨_, hbody s⟩) ps (apic, false) hp
    rw [acpi_setup_ioapic_eq m fuel k apic ps hmadt hwf, hrun]
    rfl
  · intro q s s1 hq hok
    refine ⟨?_, ?_, ?_⟩
    · intro hc
      rw [nmi_conforms_body_error m q s hq (Or.inl hc)] at hok
      cases hok
    · intro hc
      rw [nmi_conforms_body_error m q s hq (Or.inr hc)] at hok
      cases hok
    · have h13 : ACPI_MADT_TYPE_NMI_SOURCE ≠ ACPI_MADT_TYPE_IO_APIC := by decide
      have h23 : ACPI_MADT_TYPE_NMI_SOURCE ≠ ACPI_MADT_TYPE_INTERRUPT_OVERRIDE := by decide
      rw [acpi_setup_ioapic_body_ok m q s s1 hok]
      simp [routing_call, is_ioapic, hq, h13, h23]

/-- C3, amended, on the table with an I/O-APIC record and a conforming NMI source. -/
theorem C3_nmi_conforms_fatal_witness :
    (∀ s, acpi_setup_ioapic_body mem_nmi_conforms 0x1038 s = .error (.unknown_bus 255)) ∧
      (acpi_setup_ioapic mem_nmi_conforms 3 kernel_0x1000 []).isFatal = true ∧
      (∀ q s s1, ACPI_SUBTABLE_HEADER.Type_ mem_nmi_conforms q = ACPI_MADT_TYPE_NMI_SOURCE →
        acpi_setup_ioapic_body mem_nmi_conforms q s = .ok s1 →
        ACPI_MADT_NMI_SOURCE.IntiFlags mem_nmi_conforms q &&& ACPI_MADT_POLARITY_MASK ≠
            ACPI_MADT_POLARITY_CONFORMS ∧
          ACPI_MADT_NMI_SOURCE.IntiFlags mem_nmi_conforms q &&& ACPI_MADT_TRIGGER_MASK ≠
            ACPI_MADT_TRIGGER_CONFORMS ∧
          s1 = (s.1 ++ [.register_nmi
            (routing_irq (ACPI_MADT_NMI_SOURCE.GlobalIrq mem_nmi_conforms q)
              (ACPI_MADT_NMI_SOURCE.IntiFlags mem_nmi_conforms q))], s.2)) :=
  C3_nmi_conforms_fatal mem_nmi_conforms 3 kernel_0x1000 [] [0x102c, 0x1038] 0x1038
    (by decide) (by decide) (by decide) (by decide) (Or.inl (by decide))

/-- Reading the byte at offset `i` of a table placed at `base`. -/
theorem mem_at_add (base : Nat) (bs : List Nat) (i : Nat) :
    mem_at base bs (base + i) = bs.getD i 0 := by
  simp [mem_at]

/-- The iteration of the end-to-end table visits its three records. -/
theorem subtables_mem_e2e (base X fuel : Nat) :
    subtables (mem_e2e base X) (acpi_table.end_ (mem_e2e base X) ⟨base⟩) (fuel + 4)
        (acpi_table.begin_ ⟨base⟩) = some [base + 44, base + 52, base + 64] := by
  simp [subtables, acpi_table.end_, acpi_table.begin_, acpi_table.iterator.ne,
    acpi_table.iterator.next, sizeof_ACPI_TABLE_MADT, ACPI_SUBTABLE_HEADER.Length,
    ACPI_TABLE_HEADER.Length, rd32, rd16, rd8, mem_e2e, mem_at_add, Nat.add_assoc, madt_header,
    lapic_record, ioapic_record, intov_record, le32]

/-- The end-to-end table has one enabled processor record, of hardware id `X`. -/
theorem enabled_ids_mem_e2e (base X : Nat) :
    enabled_ids (mem_e2e base X) [base + 44, base + 52, base + 64] = [X % 256] := by
  simp [enabled_ids, enabled_lapicid, ACPI_SUBTABLE_HEADER.Type_,
    ACPI_MADT_LOCAL_APIC.LapicFlags, ACPI_MADT_LOCAL_APIC.Id, ACPI_MADT_TYPE_LOCAL_APIC,
    ACPI_MADT_TYPE_LOCAL_X2APIC, ACPI_MADT_ENABLED, rd32, rd16, rd8, mem_e2e, mem_at_add,
    Nat.add_assoc, madt_header, lapic_record, ioapic_record, intov_record, le32]

/-- The I/O-APIC record of the end-to-end table carries the address `0xFEC00000`. -/
theorem address_mem_e2e (base X : Nat) :
    ACPI_MADT_IO_APIC.Address (mem_e2e base X) (base + 52) = 0xFEC00000 := by
  have b0 : rd8 (mem_e2e base X) (base + 56) = 0 := by
    simp [rd8, mem_e2e, mem_at_add, madt_header, lapic_record, ioapic_record, intov_record, le32]
  have b1 : rd8 (mem_e2e base X) (base + 57) = 0 := by
    simp [rd8, mem_e2e, mem_at_add, madt_header, lapic_record, ioapic_record, intov_record, le32]
  have b2 : rd8 (mem_e2e base X) (base + 58) = 0xC0 := by
    simp [rd8, mem_e2e, mem_at_add, madt_header, lapic_record, ioapic_record, intov_record, le32]
  have b3 : rd8 (mem_e2e base X) (base + 59) = 0xFE := by
    simp [rd8, mem_e2e, mem_at_add, madt_header, lapic_record, ioapic_record, intov_record, le32]
  simp only [ACPI_MADT_IO_APIC.Address, rd32, rd16, Nat.add_assoc, Nat.reduceAdd, b0, b1, b2, b3]

/-- The loop of `acpi_setup_ioapic` over the three records of the end-to-end table. -/
theorem runRecords_setup_mem_e2e (base X : Nat) :
    runRecords (acpi_setup_ioapic_body (mem_e2e base X)) [base + 44, base + 52, base + 64]
        ([], false) =
      .ret () ([.register_base 0 0xFEC00000,
        .register_isa_irq_override 9 { gsi := 9, active_low := false, level_triggered := false }],
        true) := by
  simp only [runRecords, acpi_setup_ioapic_body, address_mem_e2e]
  simp [decode_mps_inti_flags, irq_with_gsi,
    ACPI_SUBTABLE_HEADER.Type_, ACPI_MADT_IO_APIC.GlobalIrqBase,
    ACPI_MADT_INTERRUPT_OVERRIDE.Bus, ACPI_MADT_INTERRUPT_OVERRIDE.SourceIrq,
    ACPI_MADT_INTERRUPT_OVERRIDE.GlobalIrq, ACPI_MADT_INTERRUPT_OVERRIDE.IntiFlags,
    ACPI_MADT_TYPE_IO_APIC, ACPI_MADT_TYPE_INTERRUPT_OVERRIDE, ACPI_MADT_TYPE_NMI_SOURCE,
    ACPI_MADT_POLARITY_MASK, ACPI_MADT_TRIGGER_MASK, ACPI_MADT_POLARITY_CONFORMS,
    ACPI_MADT_TRIGGER_CONFORMS, ACPI_MADT_POLARITY_ACTIVE_LOW, ACPI_MADT_TRIGGER_LEVEL,
    rd32, rd16, rd8, mem_e2e, mem_at_add, Nat.add_assoc, madt_header, lapic_record,
    ioapic_record, intov_record, le32]

/-- C2: on the table, placed at any address `base`, with one enabled local-APIC
record of hardware id `X` (the boot id; any value the 8-bit APIC id field of a
local-APIC record can hold), one I/O-APIC record (base GSI 0,
address `0xFEC00000`) and one interrupt-source override (ISA line 9, global
interrupt 9, bus 0, flags 0): `initcpus_acpi` returns true with `ncpu = 1` and
`cpus[0] = {id 0, hwid X}`, and `acpi_setup_ioapic` returns true after making
exactly the two calls `register_base(0, 0xFEC00000)` and
`register_isa_irq_override(9, irq{gsi 9, active_low false, level_triggered
false})`, and no `register_nmi` call. -/
theorem C2_end_to_end (base X : Nat) (hbase : base ≠ 0) (hX : X < 256) (NCPU fuel : Nat)
    (k : Kernel) (hk : k.madt = ⟨base⟩) :
    (∃ k1 : Kernel, initcpus_acpi NCPU (mem_e2e base X) X (fuel + 4) k = .ret true k1 ∧
        k1.ncpu = 1 ∧ k1.cpus 0 = { id := 0, hwid := X }) ∧
      acpi_setup_ioapic (mem_e2e base X) (fuel + 4) k [] =
        .ret true [.register_base 0 0xFEC00000,
          .register_isa_irq_override 9 { gsi := 9, active_low := false, level_triggered := false }]
      := by
  have hmadt : k.madt.get ≠ 0 := by rw [hk]; exact hbase
  have hwf : subtables (mem_e2e base X) (k.madt.end_ (mem_e2e base X)) (fuel + 4)
      k.madt.begin_ = some [base + 44, base + 52, base + 64] := by
    rw [hk]; exact subtables_mem_e2e base X fuel
  have hids := enabled_ids_mem_e2e base X
  rw [Nat.mod_eq_of_lt hX] at hids
  constructor
  · refine ⟨{ k with ncpu := 1, cpus := store_cpu k.cpus 0 X }, ?_, rfl, by simp [store_cpu]⟩
    rw [initcpus_acpi_eq NCPU (mem_e2e base X) X (fuel + 4) k _ hmadt hwf, hids]
    simp [runRecords, initcpus_acpi_slot]
  · rw [acpi_setup_ioapic_eq (mem_e2e base X) (fuel + 4) k [] _ hmadt hwf,
      runRecords_setup_mem_e2e base X]

/-- C2 at the address `0x1000` and the hardware id 5. -/
theorem C2_end_to_end_witness :
    (∃ k1 : Kernel, initcpus_acpi 4 (mem_e2e 0x1000 5) 5 (0 + 4) kernel_0x1000 = .ret true k1 ∧
        k1.ncpu = 1 ∧ k1.cpus 0 = { id := 0, hwid := 5 }) ∧
      acpi_setup_ioapic (mem_e2e 0x1000 5) (0 + 4) kernel_0x1000 [] =
        .ret true [.register_base 0 0xFEC00000,
          .register_isa_irq_override 9 { gsi := 9, active_low := false, level_triggered := false }]
      :=
  C2_end_to_end 0x1000 5 (by decide) (by decide) 4 0 kernel_0x1000 rfl

/-- The callback `pci_root_cb` on a root whose `_BBN` evaluation succeeds or
reports "not found": it returns `AE_OK`, after scanning the root when the
method is absent or its result well formed, and without scanning it otherwise. -/
theorem pci_root_cb_eq (bbn : Nat → BbnReply) (d : Nat) (scan : List pci_bus)
    (hst : (bbn d).status = AE_OK ∨ (bbn d).status = AE_NOT_FOUND) :
    pci_root_cb bbn d scan =
      .ret AE_OK (scan ++ if bbn_scanned bbn d then [root_bus bbn d] else []) := by
  have hne : AE_NOT_FOUND ≠ AE_OK := by decide
  unfold pci_root_cb bbn_scanned root_bus
  rcases hst with h | h
  · by_cases hl : (bbn d).Length = sizeof_ACPI_OBJECT <;>
      by_cases ht : (bbn d).Type_ = ACPI_TYPE_INTEGER <;>
      simp [h, hl, ht, ACPI_FAILURE, Ne.symm hne]
  · simp [h, ACPI_FAILURE, hne]

/-- The walk over roots whose `_BBN` evaluations all succeed or report "not
found" returns `AE_OK` after scanning, in order, the roots that are scanned. -/
theorem AcpiGetDevices_pci_root_cb (bbn : Nat → BbnReply) :
    ∀ (roots : List Nat) (scan : List pci_bus),
      (∀ d ∈ roots, (bbn d).status = AE_OK ∨ (bbn d).status = AE_NOT_FOUND) →
      AcpiGetDevices (pci_root_cb bbn) roots scan =
        .ret AE_OK (scan ++ (roots.filter (bbn_scanned bbn)).map (root_bus bbn)) := by
  intro roots
  induction roots with
  | nil => intro scan _; simp [AcpiGetDevices]
  | cons d ds ih =>
    intro scan hst
    have hd := hst d (List.mem_cons_self d ds)
    have hds : ∀ x ∈ ds, (bbn x).status = AE_OK ∨ (bbn x).status = AE_NOT_FOUND :=
      fun x hx => hst x (List.mem_cons_of_mem d hx)
    simp only [AcpiGetDevices, pci_root_cb_eq bbn d scan hd, beq_self_eq_true, if_true]
    rw [ih _ hds]
    by_cases hsc : bbn_scanned bbn d = true
    · simp [List.filter_cons, hsc]
    · simp [List.filter_cons, hsc]

/-- C4, as stated, fails on the code.  With the full subsystem enabled and two
PCI roots whose `_BBN` evaluations both succeed, one returning a value of the
wrong type and one a buffer of the wrong size, `acpi_pci_scan_roots` returns
true without invoking the scan callback at all. -/
theorem C4_counterexample :
    kernel_acpi.have_acpi = true ∧
      (∀ d ∈ [7, 8], (bbn_malformed d).status = AE_OK) ∧
      acpi_pci_scan_roots [7, 8] bbn_malformed kernel_acpi [] = .ret true [] := by
  decide

/-- C4, amended: with the full subsystem enabled and no `_BBN` evaluation
failing with a status other than "not found", `acpi_pci_scan_roots` returns
true after invoking the scan callback exactly once, in walk order, for each
PCI root whose `_BBN` method is absent (scanned with base bus number 0) or
returns a well-formed integer (scanned with that number); a root whose `_BBN`
result has the wrong buffer size or the wrong type is not scanned. -/
theorem C4_acpi_pci_scan_roots_calls (roots : List Nat) (bbn : Nat → BbnReply) (k : Kernel)
    (scan : List pci_bus) (hk : k.have_acpi = true)
    (hst : ∀ d ∈ roots, (bbn d).status = AE_OK ∨ (bbn d).status = AE_NOT_FOUND) :
    acpi_pci_scan_roots roots bbn k scan =
        .ret true (scan ++ (roots.filter (bbn_scanned bbn)).map (root_bus bbn)) ∧
      (∀ d, (bbn d).status = AE_NOT_FOUND →
        bbn_scanned bbn d = true ∧ root_bus bbn d = { busno := 0, acpi_handle := d }) ∧
      (∀ d, (bbn d).status = AE_OK →
        ((bbn d).Length ≠ sizeof_ACPI_OBJECT ∨ (bbn d).Type_ ≠ ACPI_TYPE_INTEGER) →
        bbn_scanned bbn d = false) := by
  have hne : AE_NOT_FOUND ≠ AE_OK := by decide
  refine ⟨?_, ?_, ?_⟩
  · unfold acpi_pci_scan_roots
    simp only [hk, Bool.not_true, Bool.false_eq_true, if_false]
    rw [AcpiGetDevices_pci_root_cb bbn roots scan hst]
  · intro d h
    simp [bbn_scanned, root_bus, h, hne]
  · intro d h hbad
    rcases hbad with hb | hb <;> simp [bbn_scanned, h, hb, Ne.symm hne]

/-- C4, amended, on three roots: one without `_BBN`, one with bus number 4,
one with a malformed result. -/
theorem C4_acpi_pci_scan_roots_calls_witness :
    acpi_pci_scan_roots [7, 8, 9] bbn_mixed kernel_acpi [] =
        .ret true ([] ++ ([7, 8, 9].filter (bbn_scanned bbn_mixed)).map (root_bus bbn_mixed)) ∧
      (∀ d, (bbn_mixed d).status = AE_NOT_FOUND →
        bbn_scanned bbn_mixed d = true ∧
          root_bus bbn_mixed d = { busno := 0, acpi_handle := d }) ∧
      (∀ d, (bbn_mixed d).status = AE_OK →
        ((bbn_mixed d).Length ≠ sizeof_ACPI_OBJECT ∨ (bbn_mixed d).Type_ ≠ ACPI_TYPE_INTEGER) →
        bbn_scanned bbn_mixed d = false) :=
  C4_acpi_pci_scan_roots_calls [7, 8, 9] bbn_mixed kernel_acpi [] rfl (by decide)

/-- C11: when no multiprocessor table was found (the stored MADT handle is
null), `initcpus_acpi` and `acpi_setup_ioapic` both return false at once,
whatever the fuel: the kernel globals (processor count and descriptor slots
among them) are as they were, and no call is made on the controller. -/
theorem C11_no_madt_returns_false (NCPU : Nat) (m : Mem) (boot fuel : Nat) (k : Kernel)
    (apic : List ApicCall) (hnull : k.madt.get = 0) :
    initcpus_acpi NCPU m boot fuel k = .ret false k ∧
      acpi_setup_ioapic m fuel k apic = .ret false apic := by
  constructor
  · simp [initcpus_acpi, hnull]
  · simp [acpi_setup_ioapic, hnull]

/-- C11 at the start of the boot, with no fuel at all. -/
theorem C11_no_madt_returns_false_witness :
    initcpus_acpi 4 mem_three_cpus 5 0 kernel_boot = .ret false kernel_boot ∧
      acpi_setup_ioapic mem_three_cpus 0 kernel_boot [] = .ret false [] :=
  C11_no_madt_returns_false 4 mem_three_cpus 5 0 kernel_boot [] rfl

/-- Records lying back to back from `pos` up to `pos + lens.sum` are visited in
order, with one unit of fuel more than there are records. -/
theorem subtables_of_records_at (m : Mem) :
    ∀ (lens : List Nat) (pos : Nat), records_at m pos lens = true →
      subtables m ⟨pos + lens.sum⟩ (lens.length + 1) ⟨pos⟩ = some (offsets pos lens) := by
  intro lens
  induction lens with
  | nil => intro pos _; simp [subtables, acpi_table.iterator.ne, offsets]
  | cons l ls ih =>
    intro pos h
    simp only [records_at, Bool.and_eq_true, beq_iff_eq, decide_eq_true_eq] at h
    obtain ⟨⟨hl, hpos⟩, hrest⟩ := h
    have hne : (acpi_table.iterator.ne ⟨pos⟩ ⟨pos + (l :: ls).sum⟩) = true := by
      simp only [acpi_table.iterator.ne, List.sum_cons, bne_iff_ne, ne_eq]
      omega
    have hnext : acpi_table.iterator.next m ⟨pos⟩ = ⟨pos + l⟩ := by
      simp [acpi_table.iterator.next, hl]
    have hend : pos + (l :: ls).sum = pos + l + ls.sum := by
      simp only [List.sum_cons]; omega
    rw [List.length_cons, subtables, if_pos hne, hnext, hend, ih (pos + l) hrest]
    rfl

/-- With no more fuel than there are records, the iteration has not finished. -/
theorem subtables_none_of_records_at (m : Mem) :
    ∀ (lens : List Nat) (pos fuel : Nat), records_at m pos lens = true →
      fuel ≤ lens.length → subtables m ⟨pos + lens.sum⟩ fuel ⟨pos⟩ = none := by
  intro lens
  induction lens with
  | nil =>
    intro pos fuel _ hf
    have : fuel = 0 := by simpa using hf
    subst this
    rfl
  | cons l ls ih =>
    intro pos fuel h hf
    cases fuel with
    | zero => rfl
    | succ f =>
      simp only [records_at, Bool.and_eq_true, beq_iff_eq, decide_eq_true_eq] at h
      obtain ⟨⟨hl, hpos⟩, hrest⟩ := h
      have hne : (acpi_table.iterator.ne ⟨pos⟩ ⟨pos + (l :: ls).sum⟩) = true := by
        simp only [acpi_table.iterator.ne, List.sum_cons, bne_iff_ne, ne_eq]
        omega
      have hnext : acpi_table.iterator.next m ⟨pos⟩ = ⟨pos + l⟩ := by
        simp [acpi_table.iterator.next, hl]
      have hend : pos + (l :: ls).sum = pos + l + ls.sum := by
        simp only [List.sum_cons]; omega
      simp only [List.length_cons, Nat.add_le_add_iff_right] at hf
      rw [subtables, if_pos hne, hnext, hend, ih (pos + l) f hrest hf]
      rfl

/-- After as many increments as there are records the cursor is at the end,
and not before. -/
theorem cursor_after_of_records_at (m : Mem) :
    ∀ (lens : List Nat) (pos : Nat), records_at m pos lens = true →
      cursor_after m lens.length ⟨pos⟩ = ⟨pos + lens.sum⟩ ∧
        ∀ j, j < lens.length → cursor_after m j ⟨pos⟩ ≠ ⟨pos + lens.sum⟩ := by
  intro lens
  induction lens with
  | nil => intro pos _; simp [cursor_after]
  | cons l ls ih =>
    intro pos h
    simp only [records_at, Bool.and_eq_true, beq_iff_eq, decide_eq_true_eq] at h
    obtain ⟨⟨hl, hpos⟩, hrest⟩ := h
    have hnext : acpi_table.iterator.next m ⟨pos⟩ = ⟨pos + l⟩ := by
      simp [acpi_table.iterator.next, hl]
    have hend : pos + (l :: ls).sum = pos + l + ls.sum := by
      simp only [List.sum_cons]; omega
    obtain ⟨ih1, ih2⟩ := ih (pos + l) hrest
    constructor
    · rw [List.length_cons, cursor_after, hnext, hend, ih1]
    · intro j hj
      cases j with
      | zero =>
        simp only [cursor_after, ne_eq, acpi_table.iterator.mk.injEq, List.sum_cons]
        omega
      | succ i =>
        rw [cursor_after, hnext, hend]
        exact ih2 i (by simpa using hj)

/-- There is one address in `offsets pos lens` for each length. -/
theorem length_offsets : ∀ (lens : List Nat) (pos : Nat),
    (offsets pos lens).length = lens.length := by
  intro lens
  induction lens with
  | nil => intro pos; rfl
  | cons l ls ih => intro pos; simp [offsets, ih]

/-- Every address among `offsets pos lens` is at least `pos`. -/
theorem le_of_mem_offsets : ∀ (lens : List Nat) (pos x : Nat), x ∈ offsets pos lens → pos ≤ x := by
  intro lens
  induction lens with
  | nil => intro pos x h; simp [offsets] at h
  | cons l ls ih =>
    intro pos x h
    simp only [offsets, List.mem_cons] at h
    rcases h with h | h
    · omega
    · have := ih (pos + l) x h
      omega

/-- The addresses of records of positive lengths are strictly increasing. -/
theorem offsets_increasing (m : Mem) :
    ∀ (lens : List Nat) (pos : Nat), records_at m pos lens = true →
      List.Pairwise (fun a b => a < b) (offsets pos lens) := by
  intro lens
  induction lens with
  | nil => intro pos _; simp [offsets]
  | cons l ls ih =>
    intro pos h
    simp only [records_at, Bool.and_eq_true, beq_iff_eq, decide_eq_true_eq] at h
    obtain ⟨⟨_, hpos⟩, hrest⟩ := h
    simp only [offsets, List.pairwise_cons]
    refine ⟨?_, ih (pos + l) hrest⟩
    intro x hx
    have := le_of_mem_offsets ls (pos + l) x hx
    omega

/-- C12: for a table at address `base` with header size `H` and declared total
length `L = H + len_1 + ... + len_k`, whose records after the header have the
positive declared lengths `len_1..len_k` and lie back to back, the iteration
from `begin()` (the cursor `base + H`) to `end()` (the cursor `base + L`)
finishes after exactly `k` increments (with `k + 1` evaluations of the loop
condition and not fewer), visits exactly the records at the offsets `H`,
`H + len_1`, ..., `H + len_1 + ... + len_(k-1)`, each once and in that order,
and leaves the cursor at the declared end, reached at no earlier step; the
sequence is empty when `L = H`.  For the MADT, `begin()` and `end()` are these
cursors with `H = sizeof(ACPI_TABLE_MADT)` and `L` the header's `Length`. -/
theorem C12_iteration_visits_records (m : Mem) (base H L : Nat) (lens : List Nat)
    (hL : L = H + lens.sum) (hrec : records_at m (base + H) lens = true) :
    subtables m ⟨base + L⟩ (lens.length + 1) ⟨base + H⟩ = some (offsets (base + H) lens) ∧
      (∀ fuel, fuel ≤ lens.length → subtables m ⟨base + L⟩ fuel ⟨base + H⟩ = none) ∧
      (offsets (base + H) lens).length = lens.length ∧
      List.Pairwise (fun a b => a < b) (offsets (base + H) lens) ∧
      cursor_after m lens.length ⟨base + H⟩ = ⟨base + L⟩ ∧
      (∀ j, j < lens.length → cursor_after m j ⟨base + H⟩ ≠ ⟨base + L⟩) ∧
      (L = H → subtables m ⟨base + L⟩ 1 ⟨base + H⟩ = some []) ∧
      (∀ t : acpi_table, t.begin_ = ⟨t.header_ + sizeof_ACPI_TABLE_MADT⟩ ∧
        t.end_ m = ⟨t.header_ + ACPI_TABLE_HEADER.Length m t.header_⟩) := by
  have hend : base + L = base + H + lens.sum := by omega
  have hcur := cursor_after_of_records_at m lens (base + H) hrec
  have hvis := subtables_of_records_at m lens (base + H) hrec
  rw [hend]
  refine ⟨hvis, ?_, length_offsets lens _, offsets_increasing m lens _ hrec, hcur.1, hcur.2,
    ?_, fun t => ⟨rfl, rfl⟩⟩
  · intro fuel hf
    exact subtables_none_of_records_at m lens _ fuel hrec hf
  · intro hLH
    simp [subtables, acpi_table.iterator.ne]
    omega

/-- C12 on the MADT at `0x1000` with four records of lengths 8, 16, 8 and 8. -/
theorem C12_iteration_visits_records_witness :
    subtables mem_four_records ⟨0x1000 + 84⟩ ([8, 16, 8, 8].length + 1) ⟨0x1000 + 44⟩ =
        some (offsets (0x1000 + 44) [8, 16, 8, 8]) ∧
      (∀ fuel, fuel ≤ [8, 16, 8, 8].length →
        subtables mem_four_records ⟨0x1000 + 84⟩ fuel ⟨0x1000 + 44⟩ = none) ∧
      (offsets (0x1000 + 44) [8, 16, 8, 8]).length = [8, 16, 8, 8].length ∧
      List.Pairwise (fun a b => a < b) (offsets (0x1000 + 44) [8, 16, 8, 8]) ∧
      cursor_after mem_four_records [8, 16, 8, 8].length ⟨0x1000 + 44⟩ = ⟨0x1000 + 84⟩ ∧
      (∀ j, j < [8, 16, 8, 8].length →
        cursor_after mem_four_records j ⟨0x1000 + 44⟩ ≠ ⟨0x1000 + 84⟩) ∧
      (84 = 44 → subtables mem_four_records ⟨0x1000 + 84⟩ 1 ⟨0x1000 + 44⟩ = some []) ∧
      (∀ t : acpi_table, t.begin_ = ⟨t.header_ + sizeof_ACPI_TABLE_MADT⟩ ∧
        t.end_ mem_four_records =
          ⟨t.header_ + ACPI_TABLE_HEADER.Length mem_four_records t.header_⟩) :=
  C12_iteration_visits_records mem_four_records 0x1000 44 84 [8, 16, 8, 8]
    (by decide) (by decide)

/-- C14: over every pair of firmware statuses, `initacpitables` is fatal exactly
when the root-table initialisation fails or the MADT lookup fails with a
status other than "not found"; when it is not fatal it returns with "root
tables available" set and has stored the MADT handle exactly when the lookup
status is OK, leaving the handle as it was otherwise; so on "not found", with
the handle still null, `initcpus_acpi` and `acpi_setup_ioapic` return false. -/
theorem C14_initacpitables_outcome (r_tables r_madt madtp : Nat) (k : Kernel) :
    ((initacpitables r_tables r_madt madtp k).isFatal = true ↔
        (r_tables ≠ AE_OK ∨ (r_madt ≠ AE_OK ∧ r_madt ≠ AE_NOT_FOUND))) ∧
      ((initacpitables r_tables r_madt madtp k).isFatal = false →
        ∃ k1 : Kernel, initacpitables r_tables r_madt madtp k = .ret () k1 ∧
          k1.have_tables = true ∧ k1.have_acpi = k.have_acpi ∧ k1.ncpu = k.ncpu ∧
          k1.cpus = k.cpus ∧
          (r_madt = AE_OK → k1.madt = ⟨madtp⟩) ∧ (r_madt ≠ AE_OK → k1.madt = k.madt)) ∧
      (r_tables = AE_OK → r_madt = AE_NOT_FOUND → k.madt.get = 0 →
        ∃ k1 : Kernel, initacpitables r_tables r_madt madtp k = .ret () k1 ∧
          k1.madt.get = 0 ∧
          ∀ (NCPU : Nat) (m : Mem) (boot fuel : Nat) (apic : List ApicCall),
            initcpus_acpi NCPU m boot fuel k1 = .ret false k1 ∧
              acpi_setup_ioapic m fuel k1 apic = .ret false apic) := by
  have hne : AE_NOT_FOUND ≠ AE_OK := by decide
  refine ⟨?_, ?_, ?_⟩
  · by_cases h1 : r_tables = AE_OK <;> by_cases h2 : r_madt = AE_OK <;>
      by_cases h3 : r_madt = AE_NOT_FOUND <;>
      simp_all [initacpitables, ACPI_FAILURE, Outcome.isFatal]
  · by_cases h1 : r_tables = AE_OK <;> by_cases h2 : r_madt = AE_OK <;>
      by_cases h3 : r_madt = AE_NOT_FOUND <;>
      simp_all [initacpitables, ACPI_FAILURE, Outcome.isFatal]
  · intro h1 h3 hnull
    refine ⟨{ k with have_tables := true }, ?_, hnull, ?_⟩
    · simp [initacpitables, ACPI_FAILURE, h1, h3, hne]
    · intro NCPU m boot fuel apic
      have hn : ({ k with have_tables := true } : Kernel).madt.get = 0 := hnull
      exact ⟨by simp [initcpus_acpi, hn], by simp [acpi_setup_ioapic, hn]⟩

/-- C15: when root tables are available, `initacpi` makes its calls in the order
of `bringup_stages`, up to and including the first of the first four stages
that fails (all five when none does), and no call after it; it is not fatal
exactly when the first four stages succeed and `_PIC` returns success or "not
found", and then it returns with "full subsystem enabled" set; when it is
fatal the kernel globals are as they were. -/
theorem C15_initacpi_stages (fw : AcpiReplies) (k : Kernel) (tr : List AcpiCall)
    (ht : k.have_tables = true) :
    (initacpi fw (k, tr)).state.2 = tr ++ bringup_stages.take (stages_passed fw + 1) ∧
      ((initacpi fw (k, tr)).isFatal = false ↔
        (stages_passed fw = 4 ∧
          (fw.AcpiEvaluateObject_PIC = AE_OK ∨ fw.AcpiEvaluateObject_PIC = AE_NOT_FOUND))) ∧
      ((initacpi fw (k, tr)).isFatal = false →
        initacpi fw (k, tr) = .ret () ({ k with have_acpi := true }, tr ++ bringup_stages)) ∧
      ((initacpi fw (k, tr)).isFatal = true → (initacpi fw (k, tr)).state.1 = k) := by
  have hne : AE_NOT_FOUND ≠ AE_OK := by decide
  obtain ⟨r1, r2, r3, r4, r5⟩ := fw
  by_cases h1 : r1 = AE_OK <;> by_cases h2 : r2 = AE_OK <;> by_cases h3 : r3 = AE_OK <;>
    by_cases h4 : r4 = AE_OK <;> by_cases h5 : r5 = AE_OK <;>
    by_cases h6 : r5 = AE_NOT_FOUND <;>
    simp_all [initacpi, ACPI_FAILURE, Outcome.isFatal, Outcome.state, stages_passed,
      bringup_stages]

/-- C15 on a firmware on which every stage succeeds but `_PIC` is absent. -/
theorem C15_initacpi_stages_witness :
    (initacpi replies_no_pic ({ kernel_boot with have_tables := true }, [])).state.2 =
        [] ++ bringup_stages.take (stages_passed replies_no_pic + 1) ∧
      ((initacpi replies_no_pic ({ kernel_boot with have_tables := true }, [])).isFatal = false ↔
        (stages_passed replies_no_pic = 4 ∧
          (replies_no_pic.AcpiEvaluateObject_PIC = AE_OK ∨
            replies_no_pic.AcpiEvaluateObject_PIC = AE_NOT_FOUND))) ∧
      ((initacpi replies_no_pic ({ kernel_boot with have_tables := true }, [])).isFatal = false →
        initacpi replies_no_pic ({ kernel_boot with have_tables := true }, []) =
          .ret () ({ ({ kernel_boot with have_tables := true } : Kernel) with have_acpi := true },
            [] ++ bringup_stages)) ∧
      ((initacpi replies_no_pic ({ kernel_boot with have_tables := true }, [])).isFatal = true →
        (initacpi replies_no_pic ({ kernel_boot with have_tables := true }, [])).state.1 =
          { kernel_boot with have_tables := true }) :=
  C15_initacpi_stages replies_no_pic { kernel_boot with have_tables := true } [] rfl

/-- C19: running `initacpitables` a second time against the same firmware
responses returns again, and stores the same MADT handle as the first run (or
leaves it null again): the globals after the second run are those after the
first. -/
theorem C19_initacpitables_idempotent (r_tables r_madt madtp : Nat) (k k1 : Kernel)
    (hfirst : initacpitables r_tables r_madt madtp k = .ret () k1) :
    ∃ k2 : Kernel, initacpitables r_tables r_madt madtp k1 = .ret () k2 ∧
      k2.madt = k1.madt ∧ k2 = k1 := by
  refine ⟨k1, ?_, rfl, rfl⟩
  have hne : AE_NOT_FOUND ≠ AE_OK := by decide
  by_cases h1 : r_tables = AE_OK
  · by_cases h2 : r_madt = AE_OK
    · simp only [initacpitables, ACPI_FAILURE, h1, h2, bne_self_eq_false, Bool.false_eq_true,
        if_false, Bool.false_and, beq_self_eq_true, if_true, Outcome.ret.injEq, true_and]
        at hfirst ⊢
      rw [← hfirst]
    · by_cases h3 : r_madt = AE_NOT_FOUND
      · subst h1 h3
        simp only [initacpitables, ACPI_FAILURE, bne_self_eq_false, Bool.false_eq_true,
          if_false, Bool.and_false, Outcome.ret.injEq, true_and] at hfirst ⊢
        have hb : (AE_NOT_FOUND == AE_OK) = false := by decide
        simp only [hb, Bool.false_eq_true, if_false, Outcome.ret.injEq, true_and] at hfirst ⊢
        rw [← hfirst]
      · simp [initacpitables, ACPI_FAILURE, h1, h2, h3] at hfirst
  · simp [initacpitables, ACPI_FAILURE, h1] at hfirst

/-- C19 on a firmware whose MADT lies at `0x1000`, from the start of the boot. -/
theorem C19_initacpitables_idempotent_witness :
    ∃ k2 : Kernel, initacpitables AE_OK AE_OK 0x1000
        { kernel_boot with have_tables := true, madt := ⟨0x1000⟩ } = .ret () k2 ∧
      k2.madt = ({ kernel_boot with have_tables := true, madt := ⟨0x1000⟩ } : Kernel).madt ∧
      k2 = { kernel_boot with have_tables := true, madt := ⟨0x1000⟩ } :=
  C19_initacpitables_idempotent AE_OK AE_OK 0x1000 kernel_boot
    { kernel_boot with have_tables := true, madt := ⟨0x1000⟩ } rfl

/-- A predicate on the loop state that every non-panicking step of the body
keeps holds of the state of the loop's outcome, whatever the fuel. -/
theorem rangeFor_state_inv {σ : Type} (m : Mem) (body : Nat → σ → Except Panic σ)
    (e : acpi_table.iterator) (P : σ → Prop)
    (hbody : ∀ p s s1, P s → body p s = .ok s1 → P s1) :
    ∀ (fuel : Nat) (it : acpi_table.iterator) (s : σ), P s →
      P (rangeFor m body e fuel it s).state := by
  intro fuel
  induction fuel with
  | zero => intro it s h; exact h
  | succ n ih =>
    intro it s h
    simp only [rangeFor]
    by_cases hne : it.ne e = true
    · rw [if_pos hne]
      cases hb : body it.pos_ s with
      | error p => exact h
      | ok s1 => exact ih _ s1 (hbody it.pos_ s s1 h hb)
    · rw [if_neg hne]
      exact h

/-- A step of the loop of `initcpus_acpi` writes neither flag nor the MADT handle. -/
theorem initcpus_acpi_body_flags (NCPU : Nat) (m : Mem) (boot sub : Nat)
    (s s1 : Kernel × Bool) (h : initcpus_acpi_body NCPU m boot sub s = .ok s1) :
    s1.1.have_tables = s.1.have_tables ∧ s1.1.have_acpi = s.1.have_acpi ∧
      s1.1.madt = s.1.madt := by
  rw [initcpus_acpi_body_eq] at h
  cases hl : enabled_lapicid m sub with
  | none =>
    rw [hl] at h
    simp only [Except.ok.injEq] at h
    subst h
    exact ⟨rfl, rfl, rfl⟩
  | some lapicid =>
    rw [hl] at h
    simp only [initcpus_acpi_slot] at h
    split at h
    · simp only [Except.ok.injEq] at h
      subst h
      exact ⟨rfl, rfl, rfl⟩
    · split at h
      · cases h
      · simp only [Except.ok.injEq] at h
        subst h
        exact ⟨rfl, rfl, rfl⟩

/-- Whatever its outcome, `initcpus_acpi` writes neither flag nor the MADT handle. -/
theorem initcpus_acpi_flags (NCPU : Nat) (m : Mem) (boot fuel : Nat) (k : Kernel) :
    (initcpus_acpi NCPU m boot fuel k).state.have_tables = k.have_tables ∧
      (initcpus_acpi NCPU m boot fuel k).state.have_acpi = k.have_acpi ∧
      (initcpus_acpi NCPU m boot fuel k).state.madt = k.madt := by
  unfold initcpus_acpi
  by_cases hnull : (k.madt.get == 0) = true
  · rw [if_pos hnull]
    exact ⟨rfl, rfl, rfl⟩
  · rw [if_neg hnull]
    have hinv := rangeFor_state_inv m (initcpus_acpi_body NCPU m boot)
      (({ k with ncpu := 1 } : Kernel).madt.end_ m)
      (fun s => s.1.have_tables = k.have_tables ∧ s.1.have_acpi = k.have_acpi ∧
        s.1.madt = k.madt)
      (fun p s s1 hs hb => by
        obtain ⟨a, b, c⟩ := initcpus_acpi_body_flags NCPU m boot p s s1 hb
        exact ⟨a.trans hs.1, b.trans hs.2.1, c.trans hs.2.2⟩)
      fuel ({ k with ncpu := 1 } : Kernel).madt.begin_ (({ k with ncpu := 1 } : Kernel), false)
      ⟨rfl, rfl, rfl⟩
    simp only at hinv ⊢
    cases hr : rangeFor m (initcpus_acpi_body NCPU m boot)
        (({ k with ncpu := 1 } : Kernel).madt.end_ m) fuel
        ({ k with ncpu := 1 } : Kernel).madt.begin_ (({ k with ncpu := 1 } : Kernel), false) with
    | spin s => rw [hr] at hinv; exact hinv
    | fatal p s => rw [hr] at hinv; exact hinv
    | ret a s =>
      rw [hr] at hinv
      simp only [Outcome.state] at hinv
      cases hs : s.2 <;> simp [assert_, hs, Outcome.state, hinv]

/-- Whatever its outcome, `initacpitables` leaves "full subsystem enabled" as
it was and does not clear "root tables available". -/
theorem initacpitables_flags (r_tables r_madt madtp : Nat) (k : Kernel) :
    (initacpitables r_tables r_madt madtp k).state.have_acpi = k.have_acpi ∧
      (k.have_tables = true →
        (initacpitables r_tables r_madt madtp k).state.have_tables = true) := by
  unfold initacpitables
  split
  · exact ⟨rfl, fun h => h⟩
  · simp only
    split
    · exact ⟨rfl, fun _ => rfl⟩
    · split
      · exact ⟨rfl, fun _ => rfl⟩
      · exact ⟨rfl, fun _ => rfl⟩

/-- Whatever its outcome, `initacpi` leaves the globals as they were, or, with
root tables available, sets "full subsystem enabled" and nothing else. -/
theorem initacpi_state (fw : AcpiReplies) (k : Kernel) (tr : List AcpiCall) :
    (initacpi fw (k, tr)).state.1 = k ∨
      (k.have_tables = true ∧ (initacpi fw (k, tr)).state.1 = { k with have_acpi := true }) := by
  by_cases ht : k.have_tables = true
  · unfold initacpi
    simp only [ht, Bool.not_true, Bool.false_eq_true, if_false]
    split
    · exact Or.inl rfl
    · split
      · exact Or.inl rfl
      · split
        · exact Or.inl rfl
        · split
          · exact Or.inl rfl
          · split
            · exact Or.inl rfl
            · exact Or.inr ⟨trivial, rfl⟩
  · left
    have hf : k.have_tables = false := by simpa using ht
    simp [initacpi, hf, Outcome.state]

/-- One call keeps each flag that is set, and keeps the implication from "full
subsystem enabled" to "root tables available". -/
theorem kstep_flags (k k1 : Kernel) (hs : KStep k k1) :
    (k.have_tables = true → k1.have_tables = true) ∧
      (k.have_acpi = true → k1.have_acpi = true) ∧
      ((k.have_acpi = true → k.have_tables = true) →
        (k1.have_acpi = true → k1.have_tables = true)) := by
  cases hs with
  | call_initacpitables r_tables r_madt madtp =>
    obtain ⟨ha, ht⟩ := initacpitables_flags r_tables r_madt madtp k
    refine ⟨ht, fun h => by rw [ha]; exact h, fun himp h1 => ?_⟩
    rw [ha] at h1
    exact ht (himp h1)
  | call_initcpus_acpi NCPU m boot fuel =>
    obtain ⟨ht, ha, _⟩ := initcpus_acpi_flags NCPU m boot fuel k
    refine ⟨fun h => by rw [ht]; exact h, fun h => by rw [ha]; exact h, fun himp h1 => ?_⟩
    rw [ha] at h1
    rw [ht]
    exact himp h1
  | call_acpi_setup_ioapic => exact ⟨id, id, id⟩
  | call_initacpi fw _ tr =>
    rcases initacpi_state fw k tr with h | ⟨ht, h⟩
    · rw [h]; exact ⟨id, id, id⟩
    · rw [h]; exact ⟨fun _ => ht, fun _ => rfl, fun _ _ => ht⟩
  | call_acpi_pci_scan_roots => exact ⟨id, id, id⟩

/-- C16: in every state reachable from the start of the boot (both flags false)
by any sequence of calls to `initacpitables`, `initcpus_acpi`,
`acpi_setup_ioapic`, `initacpi` and `acpi_pci_scan_roots` with any firmware
responses, "full subsystem enabled" implies "root tables available"; no call
takes either flag from true back to false; and `initacpi` called in a reachable
state without root tables returns at once, having made no firmware call, with
both flags false. -/
theorem C16_flags_invariant :
    (∀ k, Reachable k → (k.have_acpi = true → k.have_tables = true)) ∧
      (∀ k k1, KStep k k1 →
        (k.have_tables = true → k1.have_tables = true) ∧
          (k.have_acpi = true → k1.have_acpi = true)) ∧
      (∀ k, Reachable k → k.have_tables = false →
        ∀ (fw : AcpiReplies) (tr : List AcpiCall),
          initacpi fw (k, tr) = .ret () (k, tr) ∧ k.have_tables = false ∧
            k.have_acpi = false) := by
  have hinv : ∀ k, Reachable k → (k.have_acpi = true → k.have_tables = true) := by
    intro k hk
    induction hk with
    | boot k h1 h2 => intro h; rw [h2] at h; cases h
    | step k k1 _ hs ih => exact (kstep_flags k k1 hs).2.2 ih
  refine ⟨hinv, fun k k1 hs => ⟨(kstep_flags k k1 hs).1, (kstep_flags k k1 hs).2.1⟩, ?_⟩
  intro k hk ht fw tr
  refine ⟨by simp [initacpi, ht], ht, ?_⟩
  cases ha : k.have_acpi with
  | false => rfl
  | true => rw [hinv k hk ha] at ht; cases ht

/-- C17: whenever `acpi_pci_scan_roots` returns, it returns the value of "full
subsystem enabled": false when the subsystem is not enabled, and then at once,
whatever the roots and the firmware, with the scan callback not invoked; true
otherwise, however many roots the walk finds, none included.  The value the
callback returns is discarded by `pci_root_cb` and plays no part. -/
theorem C17_acpi_pci_scan_roots_result (roots : List Nat) (bbn : Nat → BbnReply) (k : Kernel)
    (scan : List pci_bus) :
    (∀ b s, acpi_pci_scan_roots roots bbn k scan = .ret b s → b = k.have_acpi) ∧
      (k.have_acpi = false → acpi_pci_scan_roots roots bbn k scan = .ret false scan) ∧
      (k.have_acpi = true →
        (∀ d ∈ roots, (bbn d).status = AE_OK ∨ (bbn d).status = AE_NOT_FOUND) →
        ∃ s, acpi_pci_scan_roots roots bbn k scan = .ret true s) ∧
      (k.have_acpi = true → acpi_pci_scan_roots [] bbn k scan = .ret true scan) := by
  refine ⟨?_, ?_, ?_, ?_⟩
  · intro b s h
    unfold acpi_pci_scan_roots at h
    cases ha : k.have_acpi with
    | false =>
      simp only [ha, Bool.not_false, if_true, Outcome.ret.injEq] at h
      exact h.1.symm
    | true =>
      simp only [ha, Bool.not_true, Bool.false_eq_true, if_false] at h
      cases hw : AcpiGetDevices (pci_root_cb bbn) roots scan with
      | ret r s1 => rw [hw] at h; simp only [Outcome.ret.injEq] at h; exact h.1.symm
      | fatal p s1 => rw [hw] at h; cases h
      | spin s1 => rw [hw] at h; cases h
  · intro ha
    simp [acpi_pci_scan_roots, ha]
  · intro ha hst
    refine ⟨scan ++ (roots.filter (bbn_scanned bbn)).map (root_bus bbn), ?_⟩
    unfold acpi_pci_scan_roots
    simp only [ha, Bool.not_true, Bool.false_eq_true, if_false]
    rw [AcpiGetDevices_pci_root_cb bbn roots scan hst]
  · intro ha
    simp [acpi_pci_scan_roots, ha, AcpiGetDevices]

/-- C18: the bus descriptor `pci_root_cb` passes to the scan callback for a PCI
root carries the root's own handle, zero in the remaining fields, and as base
bus number 0 when `_BBN` is absent and the integer `_BBN` returns when it
succeeds with a well-formed integer; and every descriptor passed during
`acpi_pci_scan_roots` is of this form, for a root of the walk. -/
theorem C18_bus_descriptor (roots : List Nat) (bbn : Nat → BbnReply) (k : Kernel)
    (scan : List pci_bus) (hk : k.have_acpi = true)
    (hst : ∀ d ∈ roots, (bbn d).status = AE_OK ∨ (bbn d).status = AE_NOT_FOUND) :
    (∀ d sc, (bbn d).status = AE_NOT_FOUND →
        pci_root_cb bbn d sc = .ret AE_OK (sc ++ [{ busno := 0, acpi_handle := d, rest := 0 }])) ∧
      (∀ d sc, (bbn d).status = AE_OK → (bbn d).Length = sizeof_ACPI_OBJECT →
        (bbn d).Type_ = ACPI_TYPE_INTEGER →
        pci_root_cb bbn d sc =
          .ret AE_OK (sc ++ [{ busno := (bbn d).Value, acpi_handle := d, rest := 0 }])) ∧
      ∃ s, acpi_pci_scan_roots roots bbn k scan = .ret true (scan ++ s) ∧
        ∀ b ∈ s, b.acpi_handle ∈ roots ∧ b.rest = 0 ∧
          ((bbn b.acpi_handle).status = AE_NOT_FOUND → b.busno = 0) ∧
          ((bbn b.acpi_handle).status = AE_OK → b.busno = (bbn b.acpi_handle).Value) := by
  have hne : AE_NOT_FOUND ≠ AE_OK := by decide
  refine ⟨?_, ?_, ?_⟩
  · intro d sc h
    rw [pci_root_cb_eq bbn d sc (Or.inr h)]
    simp [bbn_scanned, root_bus, h, hne]
  · intro d sc h hl ht
    rw [pci_root_cb_eq bbn d sc (Or.inl h)]
    simp [bbn_scanned, root_bus, h, hl, ht]
  · refine ⟨(roots.filter (bbn_scanned bbn)).map (root_bus bbn), ?_, ?_⟩
    · unfold acpi_pci_scan_roots
      simp only [hk, Bool.not_true, Bool.false_eq_true, if_false]
      rw [AcpiGetDevices_pci_root_cb bbn roots scan hst]
    · intro b hb
      simp only [List.mem_map, List.mem_filter] at hb
      obtain ⟨d, ⟨hd, _⟩, rfl⟩ := hb
      refine ⟨hd, rfl, ?_, ?_⟩
      · intro h
        simp only [root_bus] at h ⊢
        simp [h, hne]
      · intro h
        simp only [root_bus] at h ⊢
        simp [h]

/-- C18 on three roots: one without `_BBN`, one with bus number 4, one with a
malformed result. -/
theorem C18_bus_descriptor_witness :
    (∀ d sc, (bbn_mixed d).status = AE_NOT_FOUND →
        pci_root_cb bbn_mixed d sc =
          .ret AE_OK (sc ++ [{ busno := 0, acpi_handle := d, rest := 0 }])) ∧
      (∀ d sc, (bbn_mixed d).status = AE_OK → (bbn_mixed d).Length = sizeof_ACPI_OBJECT →
        (bbn_mixed d).Type_ = ACPI_TYPE_INTEGER →
        pci_root_cb bbn_mixed d sc =
          .ret AE_OK (sc ++ [{ busno := (bbn_mixed d).Value, acpi_handle := d, rest := 0 }])) ∧
      ∃ s, acpi_pci_scan_roots [7, 8, 9] bbn_mixed kernel_acpi [] = .ret true ([] ++ s) ∧
        ∀ b ∈ s, b.acpi_handle ∈ [7, 8, 9] ∧ b.rest = 0 ∧
          ((bbn_mixed b.acpi_handle).status = AE_NOT_FOUND → b.busno = 0) ∧
          ((bbn_mixed b.acpi_handle).status = AE_OK →
            b.busno = (bbn_mixed b.acpi_handle).Value) :=
  C18_bus_descriptor [7, 8, 9] bbn_mixed kernel_acpi [] rfl (by decide)

/-- When the slot-filling loop returns, the ids that differ from the boot id
sit, in order, in the slots from the starting count on, each slot carrying its
own index as logical id; the slots from 1 up to the starting count are as they
were. -/
theorem runSlots_slots (NCPU boot : Nat) :
    ∀ (ids : List Nat) (s s1 : Kernel × Bool), 1 ≤ s.1.ncpu →
      runRecords (initcpus_acpi_slot NCPU boot) ids s = .ret () s1 →
      (∀ j h, (ids.filter (fun x => x != boot))[j]? = some h →
          s1.1.cpus (s.1.ncpu + j) = { id := s.1.ncpu + j, hwid := h }) ∧
        (∀ i, 1 ≤ i → i < s.1.ncpu → s1.1.cpus i = s.1.cpus i) ∧
        s1.1.ncpu = s.1.ncpu + (ids.filter (fun x => x != boot)).length := by
  intro ids
  induction ids with
  | nil =>
    intro s s1 _ h
    simp only [runRecords, Outcome.ret.injEq, true_and] at h
    subst h
    simp
  | cons a ids ih =>
    intro s s1 h1 hrun
    by_cases h : a = boot
    · subst h
      have hfil : (List.filter (fun x => x != a) (a :: ids)) =
          List.filter (fun x => x != a) ids := by simp [List.filter_cons]
      rw [hfil]
      simp only [runRecords, initcpus_acpi_slot, beq_self_eq_true, if_true] at hrun
      obtain ⟨ihs, ihk, ihn⟩ := ih _ s1 (by simpa using h1) hrun
      refine ⟨ihs, ?_, ihn⟩
      intro i hi1 hi2
      have hi0 : i ≠ 0 := by omega
      rw [ihk i hi1 hi2]
      simp [store_cpu, hi0]
    · have hb : (a != boot) = true := by simpa using h
      have hab : (a == boot) = false := by simpa using h
      have hfil : (List.filter (fun x => x != boot) (a :: ids)) =
          a :: List.filter (fun x => x != boot) ids := by simp [List.filter_cons, hb]
      rw [hfil]
      by_cases hfull : s.1.ncpu = NCPU
      · have hnn : (s.1.ncpu == NCPU) = true := by simpa using hfull
        simp [runRecords, initcpus_acpi_slot, hab, hnn] at hrun
      · have hnn : (s.1.ncpu == NCPU) = false := by simpa using hfull
        simp only [runRecords, initcpus_acpi_slot, hab, hnn, Bool.false_eq_true, if_false]
          at hrun
        obtain ⟨ihs, ihk, ihn⟩ := ih _ s1 (by simp only; omega) hrun
        simp only at ihs ihk ihn
        refine ⟨?_, ?_, by simp only [List.length_cons]; omega⟩
        · intro j h hj
          cases j with
          | zero =>
            simp only [List.getElem?_cons_zero, Option.some.injEq] at hj
            subst hj
            rw [Nat.add_zero, ihk s.1.ncpu h1 (by omega)]
            simp [store_cpu]
          | succ i =>
            simp only [List.getElem?_cons_succ] at hj
            have := ihs i h hj
            rw [show s.1.ncpu + (i + 1) = s.1.ncpu + 1 + i by omega]
            exact this
        · intro i hi1 hi2
          have hne : i ≠ s.1.ncpu := by omega
          rw [ihk i hi1 (by omega)]
          simp [store_cpu, hne]

/-- C20: for a MADT whose iteration visits the records `ps` and on which
`initcpus_acpi` returns true, the enabled local-APIC/local-x2APIC records whose
hardware id differs from the boot id get the logical ids 1, 2, 3, ... in table
order: slot `j + 1` holds logical id `j + 1` and the hardware id of the record
at index `j` among them, and `ncpu` is their number plus one; the enabled
records that carry the boot id, of which there is at least one, are all put in
slot 0, which holds logical id 0 and the boot id. -/
theorem C20_initcpus_acpi_id_order (NCPU : Nat) (m : Mem) (boot fuel : Nat) (k k1 : Kernel)
    (ps : List Nat) (hmadt : k.madt.get ≠ 0)
    (hwf : subtables m (k.madt.end_ m) fuel k.madt.begin_ = some ps)
    (hret : initcpus_acpi NCPU m boot fuel k = .ret true k1) :
    (∀ j h, ((enabled_ids m ps).filter (fun x => x != boot))[j]? = some h →
        k1.cpus (j + 1) = { id := j + 1, hwid := h }) ∧
      k1.ncpu = 1 + ((enabled_ids m ps).filter (fun x => x != boot)).length ∧
      boot ∈ enabled_ids m ps ∧ k1.cpus 0 = { id := 0, hwid := boot } := by
  rw [initcpus_acpi_eq NCPU m boot fuel k ps hmadt hwf] at hret
  have hinv := cpus_inv_runSlots NCPU boot (enabled_ids m ps) _ (cpus_inv_start boot k)
  cases hrun : runRecords (initcpus_acpi_slot NCPU boot) (enabled_ids m ps)
      (({ k with ncpu := 1 } : Kernel), false) with
  | spin s => rw [hrun] at hret; cases hret
  | fatal p s => rw [hrun] at hret; cases hret
  | ret a s1 =>
    rw [hrun] at hret hinv
    cases hs2 : s1.2 with
    | false => simp [hs2] at hret
    | true =>
      simp only [hs2, if_true, Outcome.ret.injEq, true_and] at hret
      subst hret
      obtain ⟨hslots, _, hn⟩ := runSlots_slots NCPU boot (enabled_ids m ps) _ s1
        (Nat.le_refl 1) hrun
      simp only at hslots hn
      refine ⟨?_, hn, ?_, hinv.2.2 hs2⟩
      · intro j h hj
        rw [Nat.add_comm j 1]
        exact hslots j h hj
      · by_contra hno
        rcases runSlots_no_boot NCPU boot (enabled_ids m ps)
            (({ k with ncpu := 1 } : Kernel), false) hno with ⟨s2, h2⟩ | ⟨k2, h2⟩
        · rw [h2] at hrun; cases hrun
        · rw [h2] at hrun
          simp only [Outcome.ret.injEq, true_and] at hrun
          rw [← hrun] at hs2
          cases hs2

/-- C20 on the table with the three processors 5, 6, 7, booted on 6, with capacity 4. -/
theorem C20_initcpus_acpi_id_order_witness :
    (∀ j h, ((enabled_ids mem_three_cpus [0x102c, 0x1034, 0x103c]).filter
          (fun x => x != 6))[j]? = some h →
        (store_cpu (store_cpu (store_cpu kernel_0x1000.cpus 1 5) 0 6) 2 7) (j + 1) =
          { id := j + 1, hwid := h }) ∧
      ({ kernel_0x1000 with
          ncpu := 3
          cpus := store_cpu (store_cpu (store_cpu kernel_0x1000.cpus 1 5) 0 6) 2 7 } : Kernel).ncpu
        = 1 + ((enabled_ids mem_three_cpus [0x102c, 0x1034, 0x103c]).filter
          (fun x => x != 6)).length ∧
      6 ∈ enabled_ids mem_three_cpus [0x102c, 0x1034, 0x103c] ∧
      (store_cpu (store_cpu (store_cpu kernel_0x1000.cpus 1 5) 0 6) 2 7) 0 =
        { id := 0, hwid := 6 } :=
  C20_initcpus_acpi_id_order 4 mem_three_cpus 6 4 kernel_0x1000
    { kernel_0x1000 with
      ncpu := 3
      cpus := store_cpu (store_cpu (store_cpu kernel_0x1000.cpus 1 5) 0 6) 2 7 }
    [0x102c, 0x1034, 0x103c] (by decide) (by decide) rfl

/-- A record the spec says is skipped gives the loop of `initcpus_acpi` no
hardware id. -/
theorem enabled_lapicid_of_skipped (m : Mem) (sub : Nat) (h : skipped_record m sub = true) :
    enabled_lapicid m sub = none := by
  have hne : ACPI_MADT_TYPE_LOCAL_X2APIC ≠ ACPI_MADT_TYPE_LOCAL_APIC := by decide
  unfold skipped_record at h
  unfold enabled_lapicid
  simp only [Bool.or_eq_true, Bool.and_eq_true, beq_iff_eq, bne_iff_ne, ne_eq] at h
  rcases h with (⟨ht, hf⟩ | ⟨ht, hf⟩) | ⟨h0, h9⟩
  · simp [ht, hf]
  · simp [ht, hf, hne]
  · simp [h0, h9]

/-- C21: `initcpus_acpi` skips disabled and irrelevant records.  Take two
well-formed tables of which the second has one record more, at any position: a
local-APIC or local-x2APIC record whose "enabled" flag is clear, or a record
of any other type; the records before it and after it read as in the first
table.  Then `initcpus_acpi` has the same outcome on both, return value or
fatal error, with the same processor count and the same CPU descriptors. -/
theorem C21_skipped_records (NCPU : Nat) (m m1 : Mem) (boot fuel fuel1 : Nat) (k : Kernel)
    (pre suf pre1 suf1 : List Nat) (q : Nat) (hmadt : k.madt.get ≠ 0)
    (hwf : subtables m (k.madt.end_ m) fuel k.madt.begin_ = some (pre ++ suf))
    (hwf1 : subtables m1 (k.madt.end_ m1) fuel1 k.madt.begin_ = some (pre1 ++ q :: suf1))
    (hpre : pre.map (enabled_lapicid m) = pre1.map (enabled_lapicid m1))
    (hsuf : suf.map (enabled_lapicid m) = suf1.map (enabled_lapicid m1))
    (hq : skipped_record m1 q = true) :
    initcpus_acpi NCPU m boot fuel k = initcpus_acpi NCPU m1 boot fuel1 k := by
  have hmap : ∀ (mm : Mem) (l : List Nat),
      enabled_ids mm l = (l.map (enabled_lapicid mm)).filterMap id := by
    intro mm l
    simp [enabled_ids, List.filterMap_map]
  have hids : enabled_ids m (pre ++ suf) = enabled_ids m1 (pre1 ++ q :: suf1) := by
    have hq0 := enabled_lapicid_of_skipped m1 q hq
    rw [hmap m, hmap m1]
    simp only [List.map_append, List.map_cons, List.filterMap_append, List.filterMap_cons, hq0,
      hpre, hsuf, id_eq]
  rw [initcpus_acpi_eq NCPU m boot fuel k _ hmadt hwf,
    initcpus_acpi_eq NCPU m1 boot fuel1 k _ hmadt hwf1, hids]

/-- C21 on the table with the processors 5, 6, 7 and the same table with a
disabled local-APIC record inserted after the first record. -/
theorem C21_skipped_records_witness :
    initcpus_acpi 4 mem_three_cpus 6 4 kernel_0x1000 =
      initcpus_acpi 4 mem_three_cpus_disabled 6 5 kernel_0x1000 :=
  C21_skipped_records 4 mem_three_cpus mem_three_cpus_disabled 6 4 5 kernel_0x1000
    [0x102c] [0x1034, 0x103c] [0x102c] [0x103c, 0x1044] 0x1034
    (by decide) (by decide) (by decide)
    (Eq.trans (by decide : [0x102c].map (enabled_lapicid mem_three_cpus) = [some 5])
      (by decide : [some 5] = [0x102c].map (enabled_lapicid mem_three_cpus_disabled)))
    (Eq.trans (by decide : [0x1034, 0x103c].map (enabled_lapicid mem_three_cpus) = [some 6, some 7])
      (by decide :
        [some 6, some 7] = [0x103c, 0x1044].map (enabled_lapicid mem_three_cpus_disabled)))
    (by decide)

/-- C22: slot 0 is reserved for the boot processor and the capacity check
counts only the others.  With a capacity of at least one slot, a MADT present
and a well-formed table, let `M` be the number of enabled records whose
hardware id differs from the boot id: `initcpus_acpi` raises the "too many
CPUs" panic if and only if `M ≥ NCPU`, and whenever it returns it leaves
`ncpu = 1 + M`, however many enabled records carry the boot id. -/
theorem C22_capacity_counts_others (NCPU : Nat) (m : Mem) (boot fuel : Nat) (k : Kernel)
    (ps : List Nat) (hcap : 1 ≤ NCPU) (hmadt : k.madt.get ≠ 0)
    (hwf : subtables m (k.madt.end_ m) fuel k.madt.begin_ = some ps) :
    ((∃ k1, initcpus_acpi NCPU m boot fuel k = .fatal .too_many_cpus k1) ↔
        NCPU ≤ ((enabled_ids m ps).filter (fun x => x != boot)).length) ∧
      (∀ b k1, initcpus_acpi NCPU m boot fuel k = .ret b k1 →
        k1.ncpu = 1 + ((enabled_ids m ps).filter (fun x => x != boot)).length) := by
  rw [initcpus_acpi_eq NCPU m boot fuel k ps hmadt hwf]
  by_cases hM : NCPU ≤ ((enabled_ids m ps).filter (fun x => x != boot)).length
  · obtain ⟨s1, hrun, _⟩ := runSlots_fatal NCPU boot (enabled_ids m ps)
      (({ k with ncpu := 1 } : Kernel), false) hcap (by simp only; omega)
    rw [hrun]
    refine ⟨⟨fun _ => hM, fun _ => ⟨s1.1, rfl⟩⟩, ?_⟩
    intro b k1 h
    cases h
  · obtain ⟨k2, hrun, hn⟩ := runSlots_ret NCPU boot (enabled_ids m ps)
      (({ k with ncpu := 1 } : Kernel), false) (by simp only; omega)
    rw [hrun]
    simp only at hn
    refine ⟨⟨?_, fun h => absurd h hM⟩, ?_⟩
    · rintro ⟨k1, h⟩
      simp only at h
      split at h <;> cases h
    · intro b k1 h
      simp only at h
      split at h
      · simp only [Outcome.ret.injEq] at h
        rw [← h.2]
        exact hn
      · cases h

/-- C22 on the table with three enabled records that all carry the boot id 5,
with capacity 2. -/
theorem C22_capacity_counts_others_witness :
    ((∃ k1, initcpus_acpi 2 mem_same_id 5 4 kernel_0x1000 = .fatal .too_many_cpus k1) ↔
        2 ≤ ((enabled_ids mem_same_id [0x102c, 0x1034, 0x103c]).filter
          (fun x => x != 5)).length) ∧
      (∀ b k1, initcpus_acpi 2 mem_same_id 5 4 kernel_0x1000 = .ret b k1 →
        k1.ncpu = 1 + ((enabled_ids mem_same_id [0x102c, 0x1034, 0x103c]).filter
          (fun x => x != 5)).length) :=
  C22_capacity_counts_others 2 mem_same_id 5 4 kernel_0x1000 [0x102c, 0x1034, 0x103c]
    (by decide) (by decide) (by decide)

end Acpi

namespace Sh

/-- The inner loop of `expr_concat::eval` pushes `l + r` for every `l`. -/
theorem foldl_push_left (left : List Str) (r : Str) :
    ∀ out : List Str,
      left.foldl (fun out l => out ++ [l ++ r]) out = out ++ left.map (fun l => l ++ r) := by
  induction left with
  | nil => intro out; simp
  | cons a left ih => intro out; simp [List.foldl_cons, ih]

/-- The two nested loops of `expr_concat::eval` push the Cartesian product. -/
theorem foldl_push_cartesian (left : List Str) :
    ∀ (right : List Str) (out : List Str),
      right.foldl (fun out r => left.foldl (fun out l => out ++ [l ++ r]) out) out =
        out ++ cartesian left right := by
  intro right
  induction right with
  | nil => intro out; simp [cartesian]
  | cons r right ih =>
    intro out
    rw [List.foldl_cons, ih, foldl_push_left]
    simp [cartesian, List.flatMap_cons]

/-- The loop nest appends the Cartesian product to the output. -/
theorem expr_concat_loops_eq (left right out : List Str) :
    expr_concat_loops left right out = out ++ cartesian left right :=
  foldl_push_cartesian left right out

/-- The Cartesian product of `n` and `m` words has `n * m` words. -/
theorem length_cartesian (L : List Str) : ∀ R : List Str,
    (cartesian L R).length = L.length * R.length := by
  intro R
  induction R with
  | nil => simp [cartesian]
  | cons r R ih =>
    have : cartesian L (r :: R) = L.map (fun l => l ++ r) ++ cartesian L R := by
      simp [cartesian, List.flatMap_cons]
    rw [this, List.length_append, List.length_map, ih, List.length_cons, Nat.mul_succ]
    omega

/-- The word of the Cartesian product at index `j * n + i` is `l_i + r_j`. -/
theorem getElem?_cartesian (L : List Str) : ∀ (R : List Str) (i j : Nat)
    (hi : i < L.length) (hj : j < R.length),
    (cartesian L R)[j * L.length + i]? = some (L[i] ++ R[j]) := by
  intro R
  induction R with
  | nil => intro i j hi hj; simp at hj
  | cons r R ih =>
    intro i j hi hj
    have hc : cartesian L (r :: R) = L.map (fun l => l ++ r) ++ cartesian L R := by
      simp [cartesian, List.flatMap_cons]
    rw [hc]
    cases j with
    | zero =>
      simp only [Nat.zero_mul, Nat.zero_add, List.getElem_cons_zero]
      rw [List.getElem?_append_left (by simpa using hi)]
      simp [hi]
    | succ j =>
      have hj1 : j < R.length := by simpa using hj
      rw [List.getElem?_append_right (by simp [Nat.succ_mul]; omega)]
      simp only [List.length_map, List.getElem_cons_succ]
      rw [show (j + 1) * L.length + i - L.length = j * L.length + i by
        rw [Nat.succ_mul]; omega]
      exact ih i j hi hj1

/-- Every expression of the shell pushes exactly one word: a word and a
variable push one, and the loop nest over two single words pushes one. -/
theorem eval_single (vars : List (Str × Str)) : ∀ (e : expr) (out : List Str),
    ∃ w, e.eval vars out = out ++ [w] := by
  intro e
  induction e with
  | expr_word val_ => intro out; exact ⟨val_, rfl⟩
  | expr_var var_ => intro out; exact ⟨getvar vars var_, rfl⟩
  | expr_concat left_ right_ ihl ihr =>
    intro out
    obtain ⟨l, hl⟩ := ihl []
    obtain ⟨r, hr⟩ := ihr []
    refine ⟨l ++ r, ?_⟩
    simp only [expr.eval, hl, hr, expr_concat_loops_eq]
    simp [cartesian]

/-- C24: expression concatenation is the Cartesian product.  `expr_concat::eval`
runs its loop nest on the word lists its two sub-expressions evaluate to, and
for all word lists `L = [l_1..l_n]` and `R = [r_1..r_m]` and every output the
loop nest keeps what the output already holds and appends exactly the `n * m`
words `l_i + r_j`, the right operand being the outer loop: the word at index
`j * n + i` behind the old output is `l_i + r_j`.  When both sides yield one
word the result is the single word `l_1 + r_1`. -/
theorem C24_concat_cartesian (vars : List (Str × Str)) (left_ right_ : expr)
    (L R out : List Str) :
    (expr.expr_concat left_ right_).eval vars out =
        expr_concat_loops (left_.eval vars []) (right_.eval vars []) out ∧
      expr_concat_loops L R out = out ++ cartesian L R ∧
      (expr_concat_loops L R out).length = out.length + L.length * R.length ∧
      (∀ k (hk : k < out.length), (expr_concat_loops L R out)[k]? = some out[k]) ∧
      (∀ i j (hi : i < L.length) (hj : j < R.length),
        (expr_concat_loops L R out)[out.length + (j * L.length + i)]? =
          some (L[i] ++ R[j])) ∧
      (∀ l r, left_.eval vars [] = [l] → right_.eval vars [] = [r] →
        (expr.expr_concat left_ right_).eval vars out = out ++ [l ++ r]) := by
  refine ⟨rfl, expr_concat_loops_eq L R out, ?_, ?_, ?_, ?_⟩
  · rw [expr_concat_loops_eq, List.length_append, length_cartesian]
  · intro k hk
    rw [expr_concat_loops_eq, List.getElem?_append_left hk, List.getElem?_eq_getElem hk]
  · intro i j hi hj
    rw [expr_concat_loops_eq, List.getElem?_append_right (by omega)]
    rw [show out.length + (j * L.length + i) - out.length = j * L.length + i by omega]
    exact getElem?_cartesian L R i j hi hj
  · intro l r hl hr
    simp only [expr.eval, hl, hr, expr_concat_loops_eq]
    simp [cartesian]

/-- C24 on the loop nest over the two words `a`, `b` on the left and the three
words `x`, `y`, `z` on the right, the output holding `w`: the six words come
out as `ax`, `bx`, `ay`, `by`, `az`, `bz` behind `w`, and the word at index
`2 * 2 + 1` behind the old output is `b + z`. -/
theorem C24_concat_cartesian_witness :
    expr_concat_loops [[Char.ofNat 97], [Char.ofNat 98]]
        [[Char.ofNat 120], [Char.ofNat 121], [Char.ofNat 122]] [[Char.ofNat 119]] =
      [[Char.ofNat 119],
        [Char.ofNat 97, Char.ofNat 120], [Char.ofNat 98, Char.ofNat 120],
        [Char.ofNat 97, Char.ofNat 121], [Char.ofNat 98, Char.ofNat 121],
        [Char.ofNat 97, Char.ofNat 122], [Char.ofNat 98, Char.ofNat 122]] ∧
      (expr_concat_loops [[Char.ofNat 97], [Char.ofNat 98]]
        [[Char.ofNat 120], [Char.ofNat 121], [Char.ofNat 122]] [[Char.ofNat 119]]).length =
          1 + 2 * 3 ∧
      (expr_concat_loops [[Char.ofNat 97], [Char.ofNat 98]]
        [[Char.ofNat 120], [Char.ofNat 121], [Char.ofNat 122]] [[Char.ofNat 119]])[1 + (2 * 2 + 1)]? =
          some [Char.ofNat 98, Char.ofNat 122] ∧
      (expr.expr_concat (.expr_word [Char.ofNat 97]) (.expr_word [Char.ofNat 98])).eval []
          [[Char.ofNat 119]] = [[Char.ofNat 119], [Char.ofNat 97, Char.ofNat 98]] :=
  ⟨(C24_concat_cartesian [] (.expr_word [Char.ofNat 97]) (.expr_word [Char.ofNat 98])
      [[Char.ofNat 97], [Char.ofNat 98]]
      [[Char.ofNat 120], [Char.ofNat 121], [Char.ofNat 122]] [[Char.ofNat 119]]).2.1,
    (C24_concat_cartesian [] (.expr_word [Char.ofNat 97]) (.expr_word [Char.ofNat 98])
      [[Char.ofNat 97], [Char.ofNat 98]]
      [[Char.ofNat 120], [Char.ofNat 121], [Char.ofNat 122]] [[Char.ofNat 119]]).2.2.1,
    (C24_concat_cartesian [] (.expr_word [Char.ofNat 97]) (.expr_word [Char.ofNat 98])
      [[Char.ofNat 97], [Char.ofNat 98]]
      [[Char.ofNat 120], [Char.ofNat 121], [Char.ofNat 122]] [[Char.ofNat 119]]).2.2.2.2.1
        1 2 (by decide) (by decide),
    (C24_concat_cartesian [] (.expr_word [Char.ofNat 97]) (.expr_word [Char.ofNat 98])
      [[Char.ofNat 97], [Char.ofNat 98]]
      [[Char.ofNat 120], [Char.ofNat 121], [Char.ofNat 122]] [[Char.ofNat 119]]).2.2.2.2.2
        [Char.ofNat 97] [Char.ofNat 98] rfl rfl⟩

/-- After `setvar(n, v)`, `getvar(n)` returns `v`. -/
theorem getvar_setvar_same (n v : Str) : ∀ vars : List (Str × Str),
    getvar (setvar vars n v) n = v := by
  intro vars
  induction vars with
  | nil => simp [setvar, getvar]
  | cons p rest ih =>
    by_cases h : p.1 = n
    · simp [setvar, getvar, h]
    · simp [setvar, getvar, h, ih]

/-- After `setvar(n, v)`, `getvar` of another name returns what it did before. -/
theorem getvar_setvar_other (n m v : Str) (hnm : n ≠ m) : ∀ vars : List (Str × Str),
    getvar (setvar vars n v) m = getvar vars m := by
  intro vars
  induction vars with
  | nil => simp [setvar, getvar, hnm]
  | cons p rest ih =>
    by_cases h : p.1 = n
    · have hm : p.1 ≠ m := fun e => hnm (h.symm.trans e)
      simp [setvar, getvar, h, hnm]
    · by_cases hm : p.1 = m
      · have hmn : m ≠ n := Ne.symm hnm
        simp [setvar, getvar, hm, hmn]
      · simp [setvar, getvar, h, hm, ih]

/-- Setting a name the store holds keeps the names and their order. -/
theorem keys_setvar_of_mem (n v : Str) : ∀ vars : List (Str × Str),
    n ∈ vars.map Prod.fst → (setvar vars n v).map Prod.fst = vars.map Prod.fst := by
  intro vars
  induction vars with
  | nil => intro h; simp at h
  | cons p rest ih =>
    intro hmem
    by_cases h : p.1 = n
    · simp [setvar, h]
    · have hrest : n ∈ rest.map Prod.fst := by
        simp only [List.map_cons, List.mem_cons] at hmem
        rcases hmem with e | e
        · exact absurd e.symm h
        · exact e
      simp [setvar, h, ih hrest]

/-- Setting a name the store does not hold appends the new entry. -/
theorem setvar_of_not_mem (n v : Str) : ∀ vars : List (Str × Str),
    n ∉ vars.map Prod.fst → setvar vars n v = vars ++ [(n, v)] := by
  intro vars
  induction vars with
  | nil => intro _; rfl
  | cons p rest ih =>
    intro hmem
    simp only [List.map_cons, List.mem_cons, not_or] at hmem
    have h : p.1 ≠ n := fun e => hmem.1 e.symm
    simp [setvar, h, ih hmem.2]

/-- A name the store does not hold reads as the empty string. -/
theorem getvar_of_not_mem (n : Str) : ∀ vars : List (Str × Str),
    n ∉ vars.map Prod.fst → getvar vars n = [] := by
  intro vars
  induction vars with
  | nil => intro _; rfl
  | cons p rest ih =>
    intro hmem
    simp only [List.map_cons, List.mem_cons, not_or] at hmem
    have h : p.1 ≠ n := fun e => hmem.1 e.symm
    simp [getvar, h, ih hmem.2]

/-- `setvar` keeps the names of the store distinct. -/
theorem nodup_keys_setvar (n v : Str) (vars : List (Str × Str))
    (h : (vars.map Prod.fst).Nodup) : ((setvar vars n v).map Prod.fst).Nodup := by
  by_cases hmem : n ∈ vars.map Prod.fst
  · rw [keys_setvar_of_mem n v vars hmem]
    exact h
  · rw [setvar_of_not_mem n v vars hmem, List.map_append]
    simp only [List.map_cons, List.map_nil]
    exact List.Nodup.append h (List.nodup_singleton n) (by
      intro a ha hb
      simp only [List.mem_singleton] at hb
      subst hb
      exact hmem ha)

/-- C25: the variable store is a map with unique keys.  For every store, names
`n ≠ m` and value `v`: after `setvar(n, v)`, `getvar(n)` returns `v` and
`getvar(m)` returns what it returned before; setting a name the store holds
overwrites in place (same names, same order) and setting a new one appends;
`setvar` keeps the names distinct, so every store reachable from the empty one
holds at most one entry per name; `getvar` of a name the store does not hold
returns the empty string. -/
theorem C25_store_map (vars : List (Str × Str)) (n m v : Str) (hnm : n ≠ m) :
    getvar (setvar vars n v) n = v ∧
      getvar (setvar vars n v) m = getvar vars m ∧
      (n ∈ vars.map Prod.fst → (setvar vars n v).map Prod.fst = vars.map Prod.fst) ∧
      (n ∉ vars.map Prod.fst → setvar vars n v = vars ++ [(n, v)]) ∧
      ((vars.map Prod.fst).Nodup → ((setvar vars n v).map Prod.fst).Nodup) ∧
      (StoreReachable vars → (vars.map Prod.fst).Nodup) ∧
      (n ∉ vars.map Prod.fst → getvar vars n = []) := by
  refine ⟨getvar_setvar_same n v vars, getvar_setvar_other n m v hnm vars,
    keys_setvar_of_mem n v vars, setvar_of_not_mem n v vars, nodup_keys_setvar n v vars, ?_,
    getvar_of_not_mem n vars⟩
  intro hr
  induction hr with
  | empty => simp
  | set vars0 name val _ ih => exact nodup_keys_setvar name val vars0 ih

/-- C25 on the store holding `a = z`, setting `b` to `y`. -/
theorem C25_store_map_witness :
    getvar (setvar [([Char.ofNat 97], [Char.ofNat 122])] [Char.ofNat 98] [Char.ofNat 121])
        [Char.ofNat 98] = [Char.ofNat 121] ∧
      getvar (setvar [([Char.ofNat 97], [Char.ofNat 122])] [Char.ofNat 98] [Char.ofNat 121])
        [Char.ofNat 97] = getvar [([Char.ofNat 97], [Char.ofNat 122])] [Char.ofNat 97] ∧
      ([Char.ofNat 98] ∈ [([Char.ofNat 97], [Char.ofNat 122])].map Prod.fst →
        (setvar [([Char.ofNat 97], [Char.ofNat 122])] [Char.ofNat 98]
          [Char.ofNat 121]).map Prod.fst = [([Char.ofNat 97], [Char.ofNat 122])].map Prod.fst) ∧
      ([Char.ofNat 98] ∉ [([Char.ofNat 97], [Char.ofNat 122])].map Prod.fst →
        setvar [([Char.ofNat 97], [Char.ofNat 122])] [Char.ofNat 98] [Char.ofNat 121] =
          [([Char.ofNat 97], [Char.ofNat 122])] ++ [([Char.ofNat 98], [Char.ofNat 121])]) ∧
      (([([Char.ofNat 97], [Char.ofNat 122])].map Prod.fst).Nodup →
        ((setvar [([Char.ofNat 97], [Char.ofNat 122])] [Char.ofNat 98]
          [Char.ofNat 121]).map Prod.fst).Nodup) ∧
      (StoreReachable [([Char.ofNat 97], [Char.ofNat 122])] →
        ([([Char.ofNat 97], [Char.ofNat 122])].map Prod.fst).Nodup) ∧
      ([Char.ofNat 98] ∉ [([Char.ofNat 97], [Char.ofNat 122])].map Prod.fst →
        getvar [([Char.ofNat 97], [Char.ofNat 122])] [Char.ofNat 98] = []) :=
  C25_store_map [([Char.ofNat 97], [Char.ofNat 122])] [Char.ofNat 98] [Char.ofNat 97]
    [Char.ofNat 121] (by decide)

/-- An error raised by a computation that is never incomplete is not `syntax_incomplete`. -/
theorem error_ne_incomplete {α β : Type} {x : Except ShError α} {e : ShError}
    (hx : x ≠ .error .syntax_incomplete) (h : x = .error e) :
    (Except.error e : Except ShError β) ≠ .error .syntax_incomplete := by
  intro h2
  cases h2
  exact hx h

/-- With `eof` set, the block `do_var` does not throw `syntax_incomplete`. -/
theorem do_var_eof (buf : Str) (st : LexState) :
    do_var buf true st ≠ .error .syntax_incomplete := by
  unfold do_var
  simp only
  split
  · split <;> simp
  · simp

/-- With `eof` set, the `switch` of `lex` does not throw `syntax_incomplete`. -/
theorem lex_case_eof (buf : Str) (st : LexState) :
    lex_case buf true st ≠ .error .syntax_incomplete := by
  unfold lex_case
  simp only
  split
  · split
    · split <;> simp
    · split <;> simp
  · split
    · simp
    · split
      · simp
      · split
        · simp
        · split
          · split
            · simp
            · split
              · simp_all
              · simp
          · split
            · exact do_var_eof buf st
            · split <;> simp
  · split <;> simp
  · split
    · simp
    · split
      · simp
      · split
        · simp
        · split
          · exact do_var_eof buf st
          · simp

/-- With `eof` set, the loop of `lex` does not throw `syntax_incomplete`. -/
theorem lex_loop_eof (buf : Str) :
    ∀ (fuel : Nat) (st : LexState), lex_loop buf true fuel st ≠ .error .syntax_incomplete := by
  intro fuel
  induction fuel with
  | zero => intro st; simp [lex_loop]
  | succ n ih =>
    intro st
    have key : ∀ pos : Nat,
        (if pos == buf.length then (Except.ok { st with pos := pos } : Except ShError LexState)
          else
            match lex_case buf true { st with pos := pos } with
            | .error e => .error e
            | .ok st1 => lex_loop buf true n st1) ≠ .error .syntax_incomplete := by
      intro pos
      split
      · simp
      · split
        · next e h => exact error_ne_incomplete (lex_case_eof buf _) h
        · exact ih _
    unfold lex_loop
    split
    · exact key _
    · simp

/-- With `eof` set, `lex` does not throw `syntax_incomplete`. -/
theorem lex_eof (buf : Str) (fuel : Nat) : lex buf true fuel ≠ .error .syntax_incomplete := by
  unfold lex
  split
  · next e h => exact error_ne_incomplete (lex_loop_eof buf fuel _) h
  · split
    · split <;> simp
    · simp
    · simp
    · simp

/-- The inner loop of `pexpr` does not throw `syntax_incomplete`. -/
theorem pexpr_parts_not_incomplete :
    ∀ (fuel : Nat) (cur : List tok) (buf : Str) (any : Bool),
      pexpr_parts fuel cur buf any ≠ .error .syntax_incomplete := by
  intro fuel
  induction fuel with
  | zero => intro cur buf any; simp [pexpr_parts]
  | succ n ih =>
    intro cur buf any
    unfold pexpr_parts
    split
    split
    · exact ih _ _ _
    · simp

/-- The outer loop of `pexpr` does not throw `syntax_incomplete`. -/
theorem pexpr_loop_not_incomplete :
    ∀ (fuel : Nat) (cur : List tok) (res : Option expr),
      pexpr_loop fuel cur res ≠ .error .syntax_incomplete := by
  intro fuel
  induction fuel with
  | zero => intro cur res; simp [pexpr_loop]
  | succ n ih =>
    intro cur res
    unfold pexpr_loop
    split
    split
    · simp
    · split
      · next e h => exact error_ne_incomplete (pexpr_parts_not_incomplete _ _ _ _) h
      · simp only
        split
        · next e h =>
          intro h2
          cases h2
          split at h
          · cases h
          · split at h <;> cases h
        · split
          · exact ih _ _
          · exact ih _ _

/-- The method `pexpr` does not throw `syntax_incomplete`. -/
theorem pexpr_not_incomplete (fuel : Nat) (cur : List tok) :
    pexpr fuel cur ≠ .error .syntax_incomplete := by
  unfold pexpr
  split
  · simp
  · split
    · simp
    · exact pexpr_loop_not_incomplete _ _ _

/-- The method `predir` does not throw `syntax_incomplete`. -/
theorem predir_not_incomplete :
    ∀ (fuel : Nat) (cur : List tok), predir fuel cur ≠ .error .syntax_incomplete := by
  intro fuel
  induction fuel with
  | zero => intro cur; simp [predir]
  | succ n ih =>
    intro cur
    unfold predir
    split
    split
    · split
      · next e h => exact error_ne_incomplete (pexpr_not_incomplete _ _) h
      · simp
      · split
        · next e h => exact error_ne_incomplete (ih _) h
        · simp
    · simp

/-- The loop of `pexec` does not throw `syntax_incomplete`. -/
theorem pexec_loop_not_incomplete :
    ∀ (fuel : Nat) (cur : List tok) (argv_ : List expr) (vars_ : List (Str × expr))
      (rs : List (Char × expr)) (may_assign : Bool),
      pexec_loop fuel cur argv_ vars_ rs may_assign ≠ .error .syntax_incomplete := by
  intro fuel
  induction fuel with
  | zero => intro cur argv_ vars_ rs may_assign; simp [pexec_loop]
  | succ n ih =>
    intro cur argv_ vars_ rs may_assign
    unfold pexec_loop
    split
    · next e h => exact error_ne_incomplete (predir_not_incomplete _ _) h
    · split
      split
      · split
        · next e h => exact error_ne_incomplete (pexpr_not_incomplete _ _) h
        · simp
        · exact ih _ _ _ _ _
      · split
        · next e h => exact error_ne_incomplete (pexpr_not_incomplete _ _) h
        · simp
        · exact ih _ _ _ _ _

/-- The loop of `pback` does not throw `syntax_incomplete`. -/
theorem pback_more_not_incomplete :
    ∀ (fuel : Nat) (cur : List tok), pback_more fuel cur ≠ .error .syntax_incomplete := by
  intro fuel
  induction fuel with
  | zero => intro cur; simp [pback_more]
  | succ n ih =>
    intro cur
    unfold pback_more
    split
    split
    · exact ih _
    · simp

/-- With `eof` set, `require` does not throw `syntax_incomplete`. -/
theorem require_eof (accept : Str) (error : SyntaxWhat) (cur : List tok) :
    require true accept error cur ≠ .error .syntax_incomplete := by
  unfold require
  simp only [Bool.not_true, Bool.false_and, Bool.false_eq_true, if_false]
  split <;> simp

/-- With `eof` set, none of `pexec`, `ppipe`, `pback`, `plist` throws `syntax_incomplete`. -/
theorem parse_eof :
    ∀ fuel : Nat,
      (∀ cur, pexec fuel true cur ≠ .error .syntax_incomplete) ∧
        (∀ cur, ppipe fuel true cur ≠ .error .syntax_incomplete) ∧
        (∀ cur, pback fuel true cur ≠ .error .syntax_incomplete) ∧
        (∀ cur, plist fuel true cur ≠ .error .syntax_incomplete) := by
  intro fuel
  induction fuel with
  | zero => refine ⟨?_, ?_, ?_, ?_⟩ <;> intro cur <;> simp [pexec, ppipe, pback, plist]
  | succ n ih =>
    obtain ⟨hexec, hpipe, hback, hlist⟩ := ih
    refine ⟨?_, ?_, ?_, ?_⟩
    · intro cur
      unfold pexec
      split
      split
      · split
        · next e h => exact error_ne_incomplete (hlist _) h
        · split
          · next e h => exact error_ne_incomplete (require_eof _ _ _) h
          · split
            · next e h => exact error_ne_incomplete (predir_not_incomplete _ _) h
            · simp
      · exact pexec_loop_not_incomplete _ _ _ _ _ _
    · intro cur
      unfold ppipe
      split
      · next e h => exact error_ne_incomplete (hexec _) h
      · split
        split
        · split
          · next e h => exact error_ne_incomplete (hpipe _) h
          · simp
        · simp
    · intro cur
      unfold pback
      split
      · next e h => exact error_ne_incomplete (hpipe _) h
      · split
        split
        · split
          · next e h => exact error_ne_incomplete (pback_more_not_incomplete _ _) h
          · simp
        · simp
    · intro cur
      unfold plist
      split
      · next e h => exact error_ne_incomplete (hback _) h
      · split
        split
        · split
          · next e h => exact error_ne_incomplete (hlist _) h
          · simp
        · simp

/-- With `eof` set, the `try` block of the constructor of `parser` does not throw
`syntax_incomplete`. -/
theorem parser_try_eof (buf : Str) (fuel : Nat) :
    parser_try buf true fuel ≠ .error .syntax_incomplete := by
  unfold parser_try
  split
  · next e h => exact error_ne_incomplete (lex_eof _ _) h
  · split
    · next e h => exact error_ne_incomplete ((parse_eof fuel).2.2.2 _) h
    · simp
    · simp

/-- With `eof` set, the constructor of `parser` never takes the handler of
`syntax_incomplete`, so its `assert(!eof)` is never evaluated, and whenever the
constructor completes, `incomplete` is false and `res` is a command. -/
theorem parser_eof_never_incomplete (buf : Str) (fuel : Nat) :
    parser_try buf true fuel ≠ .error .syntax_incomplete ∧
      ∀ p, parser_new buf true fuel = .ok p → p.incomplete = false ∧ p.res.isSome = true := by
  refine ⟨parser_try_eof buf fuel, ?_⟩
  intro p hp
  unfold parser_new at hp
  split at hp
  · cases hp; exact ⟨rfl, rfl⟩
  · cases hp; exact ⟨rfl, rfl⟩
  · next h => exact absurd h (parser_try_eof buf fuel)
  · cases hp

/-- C23 fails on the code at the buffer `x=` with `eof` set: `lex` pushes the
assignment token and, at the end of the buffer, a lone separator; `pexec`
takes the assignment, `pexpr` returns a null expression, and `assert(val)`
fails, so the constructor of `parser` aborts without a command.  At the buffer
made of `a`, a backslash and `b`, the escape steps `pos` past `end` and
`assert(pos == end)` of `lex` fails. -/
theorem C23_parser_eof_aborts :
    lex [Char.ofNat 120, c_eq] true 100 =
        .ok [{ type := c_eq, word := [Char.ofNat 120, c_eq] }, { type := c_space }] ∧
      pexpr 100 [{ type := c_space }] = .ok (none, [{ type := c_space }]) ∧
      parser_new [Char.ofNat 120, c_eq] true 100 = .error (.assert_failed .val) ∧
      parser_new [c_a, c_backslash, Char.ofNat 98] true 100 =
        .error (.assert_failed .pos_at_end) :=
  ⟨rfl, rfl, rfl, rfl⟩

end Sh
